import Mathlib

/-!
Verification of the Plan Execution Engine, Repository Reference Extractor and
Identifier Sanitizer of the CustomMCP repository (src/src/services/agent.py),
as a shallow embedding in Lean 4.

Modelling conventions:
- Python strings are Lean `String` / `List Char`; the regex character class
  `[a-zA-Z0-9\-_]` is `goodChar`.  The sanitizer uses Python `\w`, modelled
  here by its ASCII fragment (alphanumeric or underscore); all inputs in the
  claims are ASCII so this restriction is inessential.
- `re.findall` / `re.search` are hand-compiled per fixed pattern into
  scanners over `List Char` with fuel equal to the text length plus one
  (each loop iteration consumes at least one character, so the fuel never
  runs out on the call sites used here).
- The external service facades (Gmail / GitHub / OpenAI clients) are opaque
  functions; a hard transport exception is `Except.error msg` where `msg`
  is the `str(e)` text, a normal return is `Except.ok`.
- Python `set(repos)` iteration order is implementation defined (hash
  randomisation); we therefore parameterise the final dedup step of the
  extractor by an arbitrary enumeration `enum : List String → List String`
  of the set, and `IsSetEnum l e` says `e` is a duplicate-free enumeration
  of exactly the members of `l` — every behaviour the CPython runtime can
  exhibit is some valid enumeration.
-/

/-- The single-quote character, used inside the source regex literals. -/
def apos : Char := Char.ofNat 39

/-- The quote character as a string, for building the engine message texts
that contain quotes. -/
def qm : String := String.mk [apos]

/-- Character class `[a-zA-Z0-9\-_]` used by every repository-name capture
group in `_extract_repo_info_from_emails`. -/
def goodChar (c : Char) : Bool := c.isAlphanum || c = '-' || c = '_'

/-- Python whitespace, for `str.strip()`. -/
def isWS (c : Char) : Bool :=
  c = ' ' || c = Char.ofNat 9 || c = Char.ofNat 10 || c = Char.ofNat 13 ||
  c = Char.ofNat 11 || c = Char.ofNat 12

/-- Python `str.strip()` on a character list. -/
def pyStrip (l : List Char) : List Char :=
  ((l.dropWhile isWS).reverse.dropWhile isWS).reverse

/-- Python `str.replace(" ", "")`: drop every space character. -/
def stripSpaces (s : String) : String := String.mk (s.data.filter (fun c => c ≠ ' '))

/-- Match a literal character sequence at the head of the text, returning the
remainder on success. -/
def matchLit : List Char → List Char → Option (List Char)
  | [], cs => some cs
  | _ :: _, [] => none
  | l :: lt, c :: ct => if c = l then matchLit lt ct else none

/-- Greedy optional literal, with backtracking: try the continuation after
the literal first, else without consuming it (regex `(?:lit)?`). -/
def optLit (lit : List Char) (k : List Char → Option α) (cs : List Char) : Option α :=
  match matchLit lit cs with
  | some r =>
    match k r with
    | some v => some v
    | none => k cs
  | none => k cs

/-- Capture `([a-zA-Z0-9\-_]+)/([a-zA-Z0-9\-_]+)` at the head of the text:
two greedy word runs joined by a slash.  Returns the two groups and the
remainder after the match. -/
def pairSlash (cs : List Char) : Option ((List Char × List Char) × List Char) :=
  if (cs.takeWhile goodChar).isEmpty then none
  else
    match cs.dropWhile goodChar with
    | c :: r =>
      if c = '/' then
        if (r.takeWhile goodChar).isEmpty then none
        else some ((cs.takeWhile goodChar, r.takeWhile goodChar), r.dropWhile goodChar)
      else none
    | [] => none

/-- Capture `([a-zA-Z0-9\-_]+) / ([a-zA-Z0-9\-_]+)` at the head of the text:
two word runs joined by space-slash-space. -/
def pairSpaced (cs : List Char) : Option ((List Char × List Char) × List Char) :=
  if (cs.takeWhile goodChar).isEmpty then none
  else
    match cs.dropWhile goodChar with
    | c1 :: c2 :: c3 :: r =>
      if c1 = ' ' ∧ c2 = '/' ∧ c3 = ' ' then
        if (r.takeWhile goodChar).isEmpty then none
        else some ((cs.takeWhile goodChar, r.takeWhile goodChar), r.dropWhile goodChar)
      else none
    | _ => none

/-- Pattern 1: `([a-zA-Z0-9\-_]+)/([a-zA-Z0-9\-_]+)`. -/
def p1Try : List Char → Option ((List Char × List Char) × List Char) := pairSlash

/-- Pattern 2: `([a-zA-Z0-9\-_]+) / ([a-zA-Z0-9\-_]+)`. -/
def p2Try : List Char → Option ((List Char × List Char) × List Char) := pairSpaced

/-- Pattern 3: `repository ([a-zA-Z0-9\-_]+)/([a-zA-Z0-9\-_]+)`. -/
def p3Try (cs : List Char) : Option ((List Char × List Char) × List Char) :=
  match matchLit "repository ".data cs with
  | some r => pairSlash r
  | none => none

/-- Literal `'s repository ` from pattern 4. -/
def lit4 : List Char := apos :: ('s' :: " repository ".data)

/-- Pattern 4: `([a-zA-Z0-9\-_]+)\'s repository ([a-zA-Z0-9\-_]+)`; the two
groups are not slash-separated in the text. -/
def p4Try (cs : List Char) : Option ((List Char × List Char) × List Char) :=
  if (cs.takeWhile goodChar).isEmpty then none
  else
    match matchLit lit4 (cs.dropWhile goodChar) with
    | some r =>
      if (r.takeWhile goodChar).isEmpty then none
      else some ((cs.takeWhile goodChar, r.takeWhile goodChar), r.dropWhile goodChar)
    | none => none

/-- Pattern 5: `Dependabot alerts? for ([a-zA-Z0-9\-_]+)/([a-zA-Z0-9\-_]+)`. -/
def p5Try (cs : List Char) : Option ((List Char × List Char) × List Char) :=
  match matchLit "Dependabot alert".data cs with
  | some r =>
    optLit ['s']
      (fun r2 =>
        match matchLit " for ".data r2 with
        | some r3 => pairSlash r3
        | none => none) r
  | none => none

/-- Pattern 6: `Dependabot alerts? for ([a-zA-Z0-9\-_]+) / ([a-zA-Z0-9\-_]+)`. -/
def p6Try (cs : List Char) : Option ((List Char × List Char) × List Char) :=
  match matchLit "Dependabot alert".data cs with
  | some r =>
    optLit ['s']
      (fun r2 =>
        match matchLit " for ".data r2 with
        | some r3 => pairSpaced r3
        | none => none) r
  | none => none

/-- Literal `'s personal account ` from the first special-case search. -/
def litAcct : List Char := apos :: ('s' :: " personal account ".data)

/-- Special case 1 (a `re.search`):
`([a-zA-Z0-9\-_]+)\'s personal account ([a-zA-Z0-9\-_]+) / ([a-zA-Z0-9\-_]+)`;
the source uses capture groups 2 and 3. -/
def tryAcct (cs : List Char) : Option ((List Char × List Char) × List Char) :=
  if (cs.takeWhile goodChar).isEmpty then none
  else
    match matchLit litAcct (cs.dropWhile goodChar) with
    | some r => pairSpaced r
    | none => none

/-- Special case 2 (a `re.search` on the subject line):
`\[GitHub\] (?:Your )?Dependabot alerts? (?:summary )?for ([a-zA-Z0-9\-_]+)/([a-zA-Z0-9\-_]+)`. -/
def tryDbot (cs : List Char) : Option ((List Char × List Char) × List Char) :=
  match matchLit "[GitHub] ".data cs with
  | some r =>
    optLit "Your ".data
      (fun r1 =>
        match matchLit "Dependabot alert".data r1 with
        | some r2 =>
          optLit ['s']
            (fun r3 =>
              match matchLit " ".data r3 with
              | some r4 =>
                optLit "summary ".data
                  (fun r5 =>
                    match matchLit "for ".data r5 with
                    | some r6 => pairSlash r6
                    | none => none) r4
              | none => none) r2
        | none => none) r
  | none => none

/-- Fuel-bounded `re.findall` driver: try a match at each position, emit the
groups of each match and resume after it; on failure advance one character. -/
def findallF (t : List Char → Option ((List Char × List Char) × List Char)) :
    Nat → List Char → List (List Char × List Char)
  | 0, _ => []
  | fuel + 1, cs =>
    match t cs with
    | some x => x.1 :: findallF t fuel x.2
    | none =>
      match cs with
      | [] => []
      | _ :: rest => findallF t fuel rest

/-- Fuel-bounded `re.search` driver: the groups of the leftmost match. -/
def searchF (t : List Char → Option ((List Char × List Char) × List Char)) :
    Nat → List Char → Option (List Char × List Char)
  | 0, _ => none
  | fuel + 1, cs =>
    match t cs with
    | some x => some x.1
    | none =>
      match cs with
      | [] => none
      | _ :: rest => searchF t fuel rest

/-- Build `f"{username}/{repo}"` after the `.strip()` of both groups. -/
def mkName (pr : List Char × List Char) : List Char :=
  pyStrip pr.1 ++ '/' :: pyStrip pr.2

/-- All repository names harvested from one text (subject or snippet) by the
six generic patterns, in pattern order then match order. -/
def textRepos (t : List Char) : List (List Char) :=
  ((findallF p1Try (t.length + 1) t) ++ (findallF p2Try (t.length + 1) t) ++
   (findallF p3Try (t.length + 1) t) ++ (findallF p4Try (t.length + 1) t) ++
   (findallF p5Try (t.length + 1) t) ++ (findallF p6Try (t.length + 1) t)).map mkName

/-- An email record as consumed by the extractor: `email.get("subject", "")`
and `email.get("snippet", "")`. -/
structure Email where
  subject : String
  snippet : String
deriving DecidableEq, Repr

/-- Repository names appended while processing one email: the six patterns
over the subject then the snippet, then the personal-account special case on
the snippet, then the Dependabot special case on the subject. -/
def emailRepos (em : Email) : List (List Char) :=
  textRepos em.subject.data ++ textRepos em.snippet.data ++
  (match searchF tryAcct (em.snippet.data.length + 1) em.snippet.data with
   | some pr => [mkName pr]
   | none => []) ++
  (match searchF tryDbot (em.subject.data.length + 1) em.subject.data with
   | some pr => [mkName pr]
   | none => [])

/-- The raw `repos` list of `_extract_repo_info_from_emails`, in discovery
order, before the `set(...)` dedup. -/
def extractRaw (emails : List Email) : List String :=
  (emails.foldl (fun acc em => acc ++ emailRepos em) []).map String.mk

/-- The property of being a valid enumeration of the Python set built from
`l`: duplicate free, with exactly the members of `l`.  The iteration order of
a CPython `set` of strings is implementation defined, so the model quantifies
over all such enumerations. -/
def IsSetEnum (l e : List String) : Prop := e.Nodup ∧ l ⊆ e ∧ e ⊆ l

instance (l e : List String) : Decidable (IsSetEnum l e) := by
  unfold IsSetEnum; infer_instance

/-- The post-dedup cleanup loop: `repo.replace(" ", "")` applied to every
member of the set enumeration. -/
def cleanRepos (e : List String) : List String := e.map stripSpaces

/-- `_extract_repo_info_from_emails` relative to a set-enumeration function
`enum` standing for the runtime iteration order of `set(repos)`. -/
def extractClean (enum : List String → List String) (emails : List Email) : List String :=
  cleanRepos (enum (extractRaw emails))

/-- The placeholder literal removed by `_clean_email_id`. -/
def tokL : List Char := "email_id_from_search_results".data

/-- Fuel-bounded kernel of the placeholder removal; every recursive call
consumes at least one character, so fuel equal to the text length is always
enough and the zero-fuel fallback is never reached with a nonempty rest. -/
def removeTokF : Nat → List Char → List Char
  | 0, cs => cs
  | _ + 1, [] => []
  | fuel + 1, c :: rest =>
    if tokL.isPrefixOf (c :: rest) then removeTokF fuel ((c :: rest).drop tokL.length)
    else c :: removeTokF fuel rest

/-- Removal of every non-overlapping occurrence of the placeholder token,
scanning left to right (`re.sub` with a literal pattern and empty
replacement). -/
def removeTok (cs : List Char) : List Char := removeTokF cs.length cs

/-- Whether the placeholder token occurs as a substring. -/
def hasTok : List Char → Bool
  | [] => false
  | c :: rest => tokL.isPrefixOf (c :: rest) || hasTok rest

/-- ASCII fragment of Python `\w`, plus hyphen: the characters kept by the
final `re.sub(r"[^\w\-]", "", ...)` of the sanitizer. -/
def keepChar (c : Char) : Bool := c.isAlphanum || c = '_' || c = '-'

/-- `AgentService._clean_email_id` on a character list: strip angle brackets,
strip the placeholder literal, then keep only word characters and hyphens. -/
def cleanChars (cs : List Char) : List Char :=
  (removeTok (cs.filter (fun c => c ≠ '<' && c ≠ '>'))).filter keepChar

/-- `AgentService._clean_email_id`. -/
def cleanEmailId (s : String) : String := String.mk (cleanChars s.data)

/-- A generic facade result item standing for a Python dict: whether the
`error` key is present, the value of the `message` key when present, and an
opaque payload distinguishing otherwise-equal items.  Used for repository
search results, alert / issue / content list elements and email contents. -/
structure RItem where
  err : Bool
  msg : Option String
  tag : Nat
deriving DecidableEq, Repr

/-- The dict returned by `get_repository_structure`: Python truthiness of the
dict (`empty`), the `error` marker and `message` key, plus an opaque tag. -/
structure SDict where
  empty : Bool
  err : Bool
  msg : Option String
  tag : Nat
deriving DecidableEq, Repr

/-- The aggregate `result_data` dict.  Dict-valued slots are association
lists in insertion order; `repository_contents` is an `Option` because the
source creates that key lazily inside the `get_repo_contents` branch, so it
can be absent from a run. -/
structure ResultData where
  emails : List Email
  email_contents : List (String × RItem)
  github_repos : List RItem
  repository_alerts : List (String × List RItem)
  repository_issues : List (String × List RItem)
  repository_structures : List (String × SDict)
  repository_contents : Option (List (String × List RItem))
  errors : List String
deriving DecidableEq, Repr

/-- Append one error description. -/
def addErr (rd : ResultData) (m : String) : ResultData :=
  { rd with errors := rd.errors ++ [m] }

/-- Python dict assignment on an association list: replace in place when the
key exists, else append (insertion order preserved). -/
def updA (l : List (String × α)) (k : String) (v : α) : List (String × α) :=
  if l.any (fun p => p.1 = k) then l.map (fun p => if p.1 = k then (k, v) else p)
  else l ++ [(k, v)]

/-- The service facades consumed by the engine, as opaque async operations:
`Except.error m` is a hard transport exception with text `m`. -/
structure Facades where
  search_emails : String → Nat → Except String (List Email)
  get_email_content : String → Except String RItem
  search_repositories : String → Nat → Except String (List RItem)
  get_repository_alerts : String → Except String (List RItem)
  get_repository_issues : String → String → Except String (List RItem)
  get_repository_structure : String → Nat → Except String SDict
  get_repository_contents : String → String → Except String (List RItem)
  generate_response : ResultData → String

/-- A step parameter mapping: each key of interest is present or absent. -/
structure Params where
  query : Option String
  max_results : Option Nat
  email_id : Option String
  repo_name : Option String
  state : Option String
  max_depth : Option Nat
  path : Option String
deriving DecidableEq, Repr

/-- The all-absent parameter mapping. -/
def pEmpty : Params := ⟨none, none, none, none, none, none, none⟩

/-- A plan step: `step.get("type")` and `step.get("params", {})`. -/
structure Step where
  type : Option String
  params : Params
deriving DecidableEq, Repr

/-- Python truthiness of an optional string parameter: `None` and the empty
string are falsy. -/
def tv : Option String → Option String
  | none => none
  | some s => if s = "" then none else some s

/-- How `step_type` renders inside an f-string (`None` for a missing key). -/
def showType : Option String → String
  | none => "None"
  | some s => s

/-- The mutable run state of one `process_query` call: the aggregate, the
`actions_taken` log and the `extracted_repo_names` list. -/
structure RunState where
  rd : ResultData
  actions : List String
  extracted : List String
deriving DecidableEq, Repr

/-- Append one action-log line. -/
def addAct (st : RunState) (m : String) : RunState :=
  { st with actions := st.actions ++ [m] }

/-- Outcome of the `try` body of one step: either a completed state, or the
state reached so far together with the text of a hard exception. -/
def StepOut := Sum RunState (RunState × String)

instance : DecidableEq StepOut := by unfold StepOut; infer_instance

/-- The state carried by a step outcome (for stating frame lemmas). -/
def stOf : StepOut → RunState
  | .inl s => s
  | .inr (s, _) => s

/-- One iteration of the `get_repo_alerts` loop for the identifier `r`:
log the attempt, call the facade, then either record the soft error in both
logs, or store the result (an empty list is stored as data, matching the
falsy-list check of the source). -/
def fanAlertsStep (F : Facades) (st : RunState) (r : String) : StepOut :=
  match F.get_repository_alerts r with
  | .error e => .inr (addAct st ("Getting repository alerts for: " ++ r), e)
  | .ok alerts =>
    match alerts with
    | a :: _ =>
      if a.err then
        .inl ⟨addErr st.rd ("Error getting alerts for " ++ r ++ ": " ++ a.msg.getD "Unknown error"),
              st.actions ++ ["Getting repository alerts for: " ++ r,
                "Error getting alerts for " ++ r ++ ": " ++ a.msg.getD "Unknown error"],
              st.extracted⟩
      else
        .inl ⟨{ st.rd with repository_alerts := updA st.rd.repository_alerts r alerts },
              st.actions ++ ["Getting repository alerts for: " ++ r], st.extracted⟩
    | [] =>
      .inl ⟨{ st.rd with repository_alerts := updA st.rd.repository_alerts r [] },
            st.actions ++ ["Getting repository alerts for: " ++ r], st.extracted⟩

/-- The `get_repo_alerts` loop, shared by the fan-out over extracted names
and (as a one-element list) the explicit `repo_name` path; a hard exception
aborts the loop, keeping the effects of earlier iterations. -/
def fanAlerts (F : Facades) : RunState → List String → StepOut
  | st, [] => .inl st
  | st, r :: rest =>
    match fanAlertsStep F st r with
    | .inl st2 => fanAlerts F st2 rest
    | .inr p => .inr p

/-- One iteration of the `get_repo_issues` loop. -/
def fanIssuesStep (F : Facades) (state : String) (st : RunState) (r : String) : StepOut :=
  match F.get_repository_issues r state with
  | .error e => .inr (addAct st ("Getting repository issues for: " ++ r), e)
  | .ok issues =>
    match issues with
    | a :: _ =>
      if a.err then
        .inl ⟨addErr st.rd ("Error getting issues for " ++ r ++ ": " ++ a.msg.getD "Unknown error"),
              st.actions ++ ["Getting repository issues for: " ++ r,
                "Error getting issues for " ++ r ++ ": " ++ a.msg.getD "Unknown error"],
              st.extracted⟩
      else
        .inl ⟨{ st.rd with repository_issues := updA st.rd.repository_issues r issues },
              st.actions ++ ["Getting repository issues for: " ++ r], st.extracted⟩
    | [] =>
      .inl ⟨{ st.rd with repository_issues := updA st.rd.repository_issues r [] },
            st.actions ++ ["Getting repository issues for: " ++ r], st.extracted⟩

/-- The `get_repo_issues` loop. -/
def fanIssues (F : Facades) (state : String) : RunState → List String → StepOut
  | st, [] => .inl st
  | st, r :: rest =>
    match fanIssuesStep F state st r with
    | .inl st2 => fanIssues F state st2 rest
    | .inr p => .inr p

/-- One iteration of the `get_repo_structure` loop; the error marker is
checked on the dict itself (`if structure and "error" in structure`). -/
def fanStructsStep (F : Facades) (depth : Nat) (st : RunState) (r : String) : StepOut :=
  match F.get_repository_structure r depth with
  | .error e => .inr (addAct st ("Getting repository structure for: " ++ r), e)
  | .ok d =>
    if !d.empty && d.err then
      .inl ⟨addErr st.rd ("Error getting structure for " ++ r ++ ": " ++ d.msg.getD "Unknown error"),
            st.actions ++ ["Getting repository structure for: " ++ r,
              "Error getting structure for " ++ r ++ ": " ++ d.msg.getD "Unknown error"],
            st.extracted⟩
    else
      .inl ⟨{ st.rd with repository_structures := updA st.rd.repository_structures r d },
            st.actions ++ ["Getting repository structure for: " ++ r], st.extracted⟩

/-- The `get_repo_structure` loop. -/
def fanStructs (F : Facades) (depth : Nat) : RunState → List String → StepOut
  | st, [] => .inl st
  | st, r :: rest =>
    match fanStructsStep F depth st r with
    | .inl st2 => fanStructs F depth st2 rest
    | .inr p => .inr p

/-- The key under which a `get_repo_contents` result is stored:
`name:path` when a (truthy) path was given, else the bare name. -/
def contKey (path r : String) : String := if path ≠ "" then r ++ ":" ++ path else r

/-- Store a successful `get_repo_contents` result, creating the
`repository_contents` key on first use. -/
def contStore (path r : String) (cts : List RItem) (rd : ResultData) : ResultData :=
  { rd with repository_contents := some (updA (rd.repository_contents.getD []) (contKey path r) cts) }

/-- One iteration of the `get_repo_contents` loop; a successful store
creates the `repository_contents` key on first use. -/
def fanContentsStep (F : Facades) (path : String) (st : RunState) (r : String) : StepOut :=
  match F.get_repository_contents r path with
  | .error e => .inr (addAct st ("Getting repository contents for: " ++ r ++ ", path: " ++ path), e)
  | .ok cts =>
    match cts with
    | a :: _ =>
      if a.err then
        .inl ⟨addErr st.rd ("Error getting contents for " ++ r ++ ": " ++ a.msg.getD "Unknown error"),
              st.actions ++ ["Getting repository contents for: " ++ r ++ ", path: " ++ path,
                "Error getting contents for " ++ r ++ ": " ++ a.msg.getD "Unknown error"],
              st.extracted⟩
      else
        .inl ⟨contStore path r cts st.rd,
              st.actions ++ ["Getting repository contents for: " ++ r ++ ", path: " ++ path],
              st.extracted⟩
    | [] =>
      .inl ⟨contStore path r [] st.rd,
            st.actions ++ ["Getting repository contents for: " ++ r ++ ", path: " ++ path],
            st.extracted⟩

/-- The `get_repo_contents` loop. -/
def fanContents (F : Facades) (path : String) : RunState → List String → StepOut
  | st, [] => .inl st
  | st, r :: rest =>
    match fanContentsStep F path st r with
    | .inl st2 => fanContents F path st2 rest
    | .inr p => .inr p

/-- The `search_gmail` branch: log the attempt, search, replace the
`emails` slot, recompute `extracted_repo_names` from the results and log the
outcome of the extraction. -/
def bGmail (F : Facades) (enum : List String → List String) (st : RunState) (p : Params) : StepOut :=
  match tv p.query with
  | none => .inl { st with rd := addErr st.rd ("Missing " ++ qm ++ "query" ++ qm ++ " parameter for search_gmail") }
  | some q =>
    match F.search_emails q (p.max_results.getD 10) with
    | .error e => .inr ({ st with actions := st.actions ++ ["Searching Gmail with query: " ++ q] }, e)
    | .ok emails =>
      if (extractClean enum emails).isEmpty then
        .inl ⟨{ st.rd with emails := emails },
              st.actions ++ ["Searching Gmail with query: " ++ q,
                "No repository names were extracted from emails"],
              extractClean enum emails⟩
      else
        .inl ⟨{ st.rd with emails := emails },
              st.actions ++ ["Searching Gmail with query: " ++ q,
                "Extracted repository names: " ++ String.intercalate ", " (extractClean enum emails)],
              extractClean enum emails⟩

/-- The `get_email_content` branch: the identifier is sanitized before the
log line, the facade call and the store. -/
def bContent (F : Facades) (st : RunState) (p : Params) : StepOut :=
  match tv p.email_id with
  | none => .inl { st with rd := addErr st.rd ("Missing " ++ qm ++ "email_id" ++ qm ++ " parameter for get_email_content") }
  | some raw =>
    match F.get_email_content (cleanEmailId raw) with
    | .error e =>
      .inr ({ st with actions := st.actions ++ ["Getting email content for ID: " ++ cleanEmailId raw] }, e)
    | .ok c =>
      .inl ⟨{ st.rd with email_contents := updA st.rd.email_contents (cleanEmailId raw) c },
            st.actions ++ ["Getting email content for ID: " ++ cleanEmailId raw], st.extracted⟩

/-- The `search_github_repos` branch; the result is stored without any
error-marker inspection. -/
def bSearchRepos (F : Facades) (st : RunState) (p : Params) : StepOut :=
  match tv p.query with
  | none => .inl { st with rd := addErr st.rd ("Missing " ++ qm ++ "query" ++ qm ++ " parameter for search_github_repos") }
  | some q =>
    match F.search_repositories q (p.max_results.getD 5) with
    | .error e =>
      .inr ({ st with actions := st.actions ++ ["Searching GitHub repositories with query: " ++ q] }, e)
    | .ok repos =>
      .inl ⟨{ st.rd with github_repos := repos },
            st.actions ++ ["Searching GitHub repositories with query: " ++ q], st.extracted⟩

/-- The missing-`repo_name` error text of the four repo-scoped branches. -/
def missRepoMsg (kind : String) : String :=
  "Missing " ++ qm ++ "repo_name" ++ qm ++ " parameter for " ++ kind ++
  " and no repository names extracted from emails"

/-- The `get_repo_alerts` branch. -/
def bAlerts (F : Facades) (st : RunState) (p : Params) : StepOut :=
  match tv p.repo_name with
  | none =>
    if st.extracted.isEmpty then .inl { st with rd := addErr st.rd (missRepoMsg "get_repo_alerts") }
    else fanAlerts F st st.extracted
  | some r => fanAlerts F st [r]

/-- The `get_repo_issues` branch. -/
def bIssues (F : Facades) (st : RunState) (p : Params) : StepOut :=
  match tv p.repo_name with
  | none =>
    if st.extracted.isEmpty then .inl { st with rd := addErr st.rd (missRepoMsg "get_repo_issues") }
    else fanIssues F (p.state.getD "open") st st.extracted
  | some r => fanIssues F (p.state.getD "open") st [r]

/-- The `get_repo_structure` branch; uniquely, its missing-`repo_name` error
is appended to the action log as well. -/
def bStructs (F : Facades) (st : RunState) (p : Params) : StepOut :=
  match tv p.repo_name with
  | none =>
    if st.extracted.isEmpty then
      .inl (addAct { st with rd := addErr st.rd (missRepoMsg "get_repo_structure") } (missRepoMsg "get_repo_structure"))
    else fanStructs F (p.max_depth.getD 3) st st.extracted
  | some r => fanStructs F (p.max_depth.getD 3) st [r]

/-- The `get_repo_contents` branch. -/
def bContents (F : Facades) (st : RunState) (p : Params) : StepOut :=
  match tv p.repo_name with
  | none =>
    if st.extracted.isEmpty then .inl { st with rd := addErr st.rd (missRepoMsg "get_repo_contents") }
    else fanContents F (p.path.getD "") st st.extracted
  | some r => fanContents F (p.path.getD "") st [r]

/-- The `try` body of one loop iteration of `process_query`: dispatch on the
step type; unrecognised types are recorded in both logs. -/
def tryBody (F : Facades) (enum : List String → List String) (st : RunState) (sp : Step) : StepOut :=
  if sp.type = some "search_gmail" then bGmail F enum st sp.params
  else if sp.type = some "get_email_content" then bContent F st sp.params
  else if sp.type = some "search_github_repos" then bSearchRepos F st sp.params
  else if sp.type = some "get_repo_alerts" then bAlerts F st sp.params
  else if sp.type = some "get_repo_issues" then bIssues F st sp.params
  else if sp.type = some "get_repo_structure" then bStructs F st sp.params
  else if sp.type = some "get_repo_contents" then bContents F st sp.params
  else .inl (addAct { st with rd := addErr st.rd ("Unknown step type: " ++ showType sp.type) }
              ("Unknown step type: " ++ showType sp.type))

/-- The hard-exception error text of the `except` clause. -/
def procMsg (sp : Step) (e : String) : String :=
  "Error processing " ++ showType sp.type ++ ": " ++ e

/-- One loop iteration of `process_query`: the `try` body, with the `except`
clause converting a hard exception into an error appended to both logs. -/
def execStep (F : Facades) (enum : List String → List String) (st : RunState) (sp : Step) : RunState :=
  match tryBody F enum st sp with
  | .inl s => s
  | .inr (s, e) => addAct { s with rd := addErr s.rd (procMsg sp e) } (procMsg sp e)

/-- The step loop of `process_query`, in plan order. -/
def runSteps (F : Facades) (enum : List String → List String) : RunState → List Step → RunState
  | st, [] => st
  | st, sp :: rest => runSteps F enum (execStep F enum st sp) rest

/-- The run state at the top of `process_query`: every eager aggregate key
bound to an empty container, `repository_contents` absent, empty logs, no
extracted names. -/
def initState : RunState :=
  ⟨⟨[], [], [], [], [], [], none, []⟩, [], []⟩

/-- The externally observable part of the `process_query` envelope: the
aggregate, the narration and the action log (which gains a final
"Generating response" line before narration). -/
structure QueryResult where
  data : ResultData
  response : String
  actions_taken : List String
deriving DecidableEq, Repr

/-- `AgentService.process_query` on an already-constructed plan (plan
construction by the planner facade is the caller's concern, out of scope). -/
def processQuery (F : Facades) (enum : List String → List String) (steps : List Step) : QueryResult :=
  let st := runSteps F enum initState steps
  ⟨st.rd, F.generate_response st.rd, st.actions ++ ["Generating response"]⟩

/-- The owner/name shape of an extracted identifier: a nonempty run of
characters from `[a-zA-Z0-9\-_]`, one slash, a nonempty run of such
characters (hence exactly one slash in the whole string). -/
def shapeOK (cs : List Char) : Bool :=
  !(cs.takeWhile goodChar).isEmpty &&
  (match cs.dropWhile goodChar with
   | c :: r => c = '/' && !r.isEmpty && r.all goodChar
   | [] => false)

/-- A well-formed captured pair: both groups nonempty, all characters from
the repository-name class. -/
def GoodPr (pr : List Char × List Char) : Prop :=
  pr.1 ≠ [] ∧ pr.2 ≠ [] ∧ (∀ c ∈ pr.1, goodChar c) ∧ (∀ c ∈ pr.2, goodChar c)

/-- The seven missing-required-parameter error texts the engine can emit
(each branch interpolates its own literal step type). -/
def missingMsgs : List String :=
  ["Missing " ++ qm ++ "query" ++ qm ++ " parameter for search_gmail",
   "Missing " ++ qm ++ "email_id" ++ qm ++ " parameter for get_email_content",
   "Missing " ++ qm ++ "query" ++ qm ++ " parameter for search_github_repos",
   missRepoMsg "get_repo_alerts", missRepoMsg "get_repo_issues",
   missRepoMsg "get_repo_structure", missRepoMsg "get_repo_contents"]

/-- Log frame between two run states: the action log is only appended to,
the error list is only appended to, and every new error also appears among
the new action lines. -/
def LogFrame (st st' : RunState) : Prop :=
  ∃ da de, st'.actions = st.actions ++ da ∧ st'.rd.errors = st.rd.errors ++ de ∧
    ∀ m ∈ de, m ∈ da

/-- Log frame with the missing-parameter escape: every new error either also
appears among the new action lines or is one of the seven
missing-required-parameter texts. -/
def LogFrameM (st st' : RunState) : Prop :=
  ∃ da de, st'.actions = st.actions ++ da ∧ st'.rd.errors = st.rd.errors ++ de ∧
    ∀ m ∈ de, m ∈ da ∨ m ∈ missingMsgs

/-- A facade bundle whose every operation raises a hard exception, for
exercising the exception path. -/
def Fu : Facades :=
  ⟨fun _ _ => .error "unused", fun _ => .error "unused", fun _ _ => .error "unused",
   fun _ => .error "unused", fun _ _ => .error "unused", fun _ _ => .error "unused",
   fun _ _ => .error "unused", fun _ => "resp"⟩

/-- A concrete valid set enumeration (first-seen order suffices for the
witnesses; the theorems quantify over all valid enumerations). -/
def enumD : List String → List String := fun l => l.dedup

/-- Facades whose repository search returns a soft-error payload. -/
def F3c : Facades := { Fu with search_repositories := fun _ _ => .ok [⟨true, some "boom", 0⟩] }

/-- Facades whose four repo-scoped reads return soft-error payloads. -/
def Fsoft : Facades :=
  { Fu with
    get_repository_alerts := fun _ => .ok [⟨true, some "nf", 1⟩],
    get_repository_issues := fun _ _ => .ok [⟨true, some "nf", 2⟩],
    get_repository_structure := fun _ _ => .ok ⟨false, true, some "nf", 3⟩,
    get_repository_contents := fun _ _ => .ok [⟨true, some "nf", 4⟩] }

/-- Facades for the two-email-search scenario: the first query yields an
email mentioning `a/b`, the second yields an email with no repository
reference. -/
def F5c : Facades :=
  { Fu with search_emails := fun q _ =>
      if q = "q1" then .ok [⟨"a/b", ""⟩] else .ok [⟨"hello world", ""⟩] }

/-- A `search_gmail` step with the given query. -/
def spG (q : String) : Step := ⟨some "search_gmail", { pEmpty with query := some q }⟩

/-- A `search_github_repos` step with query `q`. -/
def spSR : Step := ⟨some "search_github_repos", { pEmpty with query := some "q" }⟩

/-- A step of unknown type. -/
def spU : Step := ⟨some "frobnicate", pEmpty⟩

/-- Parameters carrying only an explicit repository name. -/
def pRepo (r : String) : Params := { pEmpty with repo_name := some r }

/-- The Dependabot summary message of the extraction scenario. -/
def em9 : Email := ⟨"[GitHub] Dependabot alerts summary for acme/widgets", ""⟩

/-- The run state after the logged Gmail search attempt of `spG "x"`, just
before the facade raises. -/
def stG : RunState := ⟨⟨[], [], [], [], [], [], none, []⟩, ["Searching Gmail with query: x"], []⟩

lemma removeTokF_of_not : ∀ (fuel : Nat) (cs : List Char), hasTok cs = false →
    removeTokF fuel cs = cs := by
  intro fuel
  induction fuel with
  | zero => intro cs _; rfl
  | succ n ih =>
    intro cs h
    cases cs with
    | nil => rfl
    | cons c rest =>
      rw [hasTok, Bool.or_eq_false_iff] at h
      rw [removeTokF, if_neg (by simp [h.1]), ih rest h.2]

lemma removeTok_of_not {cs : List Char} (h : hasTok cs = false) : removeTok cs = cs :=
  removeTokF_of_not cs.length cs h

lemma cleanChars_keep {l : List Char} {c : Char} (hc : c ∈ cleanChars l) : keepChar c = true :=
  (List.mem_filter.mp hc).2

/-- C6 (amended): `_clean_email_id` is a deterministic total function with
`sanitize("") = ""`, and it is idempotent on every input whose first
sanitization does not contain the placeholder literal; full idempotence
fails (see the counterexample). -/
theorem C6_sanitizer :
    cleanEmailId "" = "" ∧
    ∀ s : String, hasTok (cleanChars s.data) = false →
      cleanEmailId (cleanEmailId s) = cleanEmailId s := by
  refine ⟨rfl, fun s h => ?_⟩
  show String.mk (cleanChars (cleanChars s.data)) = String.mk (cleanChars s.data)
  congr 1
  have hkeep : ∀ c ∈ cleanChars s.data, keepChar c = true := fun c hc => cleanChars_keep hc
  have hne : ∀ c ∈ cleanChars s.data, (c ≠ '<' && c ≠ '>') = true := by
    intro c hc
    have hk := hkeep c hc
    by_cases h1 : c = '<'
    · subst h1; exact absurd hk (by decide)
    · by_cases h2 : c = '>'
      · subst h2; exact absurd hk (by decide)
      · simp [h1, h2]
  conv_lhs => rw [cleanChars]
  rw [List.filter_eq_self.mpr hne, removeTok_of_not h, List.filter_eq_self.mpr hkeep]

/-- C6 counterexample: the sanitizer is not idempotent — stripping the
illegal character from this input manufactures the placeholder literal,
which the second pass then deletes. -/
theorem C6_not_idempotent :
    cleanEmailId (cleanEmailId "email_id_from_search_result!s") ≠
      cleanEmailId "email_id_from_search_result!s" := by decide

theorem C6_sanitizer_witness :
    hasTok (cleanChars "abc<1>".data) = false ∧
    cleanEmailId (cleanEmailId "abc<1>") = cleanEmailId "abc<1>" :=
  ⟨by decide, C6_sanitizer.2 "abc<1>" (by decide)⟩

/-- C7: a step of unknown kind leaves every aggregate slot and the extracted
names unchanged, appends exactly one error naming the kind (also logged),
and the run continues; on a one-step plan the errors list is exactly that
entry. -/
theorem C7_unknown_step (F : Facades) (enum : List String → List String)
    (st : RunState) (sp : Step)
    (h1 : sp.type ≠ some "search_gmail") (h2 : sp.type ≠ some "get_email_content")
    (h3 : sp.type ≠ some "search_github_repos") (h4 : sp.type ≠ some "get_repo_alerts")
    (h5 : sp.type ≠ some "get_repo_issues") (h6 : sp.type ≠ some "get_repo_structure")
    (h7 : sp.type ≠ some "get_repo_contents") :
    execStep F enum st sp =
      { st with
        rd := { st.rd with errors := st.rd.errors ++ ["Unknown step type: " ++ showType sp.type] },
        actions := st.actions ++ ["Unknown step type: " ++ showType sp.type] } ∧
    (runSteps F enum initState [sp]).rd.errors = ["Unknown step type: " ++ showType sp.type] := by
  have key : ∀ s : RunState, execStep F enum s sp =
      { s with
        rd := { s.rd with errors := s.rd.errors ++ ["Unknown step type: " ++ showType sp.type] },
        actions := s.actions ++ ["Unknown step type: " ++ showType sp.type] } := by
    intro s
    simp [execStep, tryBody, h1, h2, h3, h4, h5, h6, h7, addErr, addAct]
  refine ⟨key st, ?_⟩
  rw [runSteps, runSteps, key initState]
  simp [initState]

theorem C7_unknown_step_witness :
    execStep Fu enumD initState spU =
      { initState with
        rd := { initState.rd with errors := initState.rd.errors ++ ["Unknown step type: " ++ showType spU.type] },
        actions := initState.actions ++ ["Unknown step type: " ++ showType spU.type] } ∧
    (runSteps Fu enumD initState [spU]).rd.errors = ["Unknown step type: " ++ showType spU.type] :=
  C7_unknown_step Fu enumD initState spU (by decide) (by decide) (by decide) (by decide)
    (by decide) (by decide) (by decide)

/-- C1: a hard exception raised by a facade call inside a step is caught at
the step boundary, converted into the text `Error processing <kind>: <cause>`
appended to both the errors list and the action log, and the loop proceeds
with the next step; `process_query` is a total function of the plan and
always returns the aggregate and the action log. -/
theorem C1_exception_isolated (F : Facades) (enum : List String → List String)
    (st : RunState) (sp : Step) (st1 : RunState) (e : String)
    (h : tryBody F enum st sp = Sum.inr (st1, e)) :
    execStep F enum st sp =
      { st1 with
        rd := { st1.rd with errors := st1.rd.errors ++ [procMsg sp e] },
        actions := st1.actions ++ [procMsg sp e] } ∧
    (∀ rest, runSteps F enum st (sp :: rest) = runSteps F enum (execStep F enum st sp) rest) ∧
    (∀ steps, (processQuery F enum steps).data = (runSteps F enum initState steps).rd ∧
      (processQuery F enum steps).actions_taken =
        (runSteps F enum initState steps).actions ++ ["Generating response"]) := by
  refine ⟨?_, fun rest => rfl, fun steps => ⟨rfl, rfl⟩⟩
  simp [execStep, h, addErr, addAct]

theorem C1_exception_isolated_witness :
    tryBody Fu enumD initState (spG "x") = Sum.inr (stG, "unused") ∧
    execStep Fu enumD initState (spG "x") =
      { stG with
        rd := { stG.rd with errors := stG.rd.errors ++ [procMsg (spG "x") "unused"] },
        actions := stG.actions ++ [procMsg (spG "x") "unused"] } ∧
    runSteps Fu enumD initState [spG "x"] =
      runSteps Fu enumD (execStep Fu enumD initState (spG "x")) [] ∧
    (processQuery Fu enumD [spG "x"]).data = (runSteps Fu enumD initState [spG "x"]).rd ∧
    (processQuery Fu enumD [spG "x"]).actions_taken =
      (runSteps Fu enumD initState [spG "x"]).actions ++ ["Generating response"] :=
  ⟨by decide,
   (C1_exception_isolated Fu enumD initState (spG "x") stG "unused" (by decide)).1,
   (C1_exception_isolated Fu enumD initState (spG "x") stG "unused" (by decide)).2.1 [],
   (C1_exception_isolated Fu enumD initState (spG "x") stG "unused" (by decide)).2.2 [spG "x"]⟩

/-- C2 counterexample: the aggregate of a run over the empty plan has no
`repository_contents` key — that key is not pre-declared at run start, so it
is not present in every run. -/
theorem C2_contents_key_absent :
    (processQuery Fu enumD []).data.repository_contents = none := by decide

/-- C3 counterexample: a `search_github_repos` result whose first element
carries an `error` field is stored as data in the aggregate and no error is
recorded — the engine does not check the error marker on every facade
result. -/
theorem C3_search_unchecked :
    (processQuery F3c enumD [spSR]).data.github_repos = [⟨true, some "boom", 0⟩] ∧
    (processQuery F3c enumD [spSR]).data.errors = [] := by decide

/-- C4 counterexample: the discovery order of the extracted names is
`["a/b", "c/d"]`, yet `["c/d", "a/b"]` is a valid iteration order of the
Python `set` used for dedup, and under it the returned membership order
differs from the insertion order of first discovery. -/
theorem C4_order_not_guaranteed :
    extractRaw [⟨"a/b", ""⟩, ⟨"c/d", ""⟩] = ["a/b", "c/d"] ∧
    IsSetEnum (extractRaw [⟨"a/b", ""⟩, ⟨"c/d", ""⟩]) ["c/d", "a/b"] ∧
    cleanRepos ["c/d", "a/b"] ≠ extractRaw [⟨"a/b", ""⟩, ⟨"c/d", ""⟩] := by decide

/-- C5 counterexample: a second email-search step overwrites
`extracted_repo_names` — here the first search extracts `a/b` and the second
(whose emails contain no repository reference) resets the list to empty, so
the names are not populated at most once and are lost to later steps. -/
theorem C5_overwritten_by_second_search :
    (runSteps F5c enumD initState [spG "q1"]).extracted = ["a/b"] ∧
    (runSteps F5c enumD initState [spG "q1", spG "q2"]).extracted = [] := by decide

/-- C8 counterexample: the missing-required-parameter error of a
`search_gmail` step is appended to the errors list but to no action-log
line, so the errors list is not a subset of the action log. -/
theorem C8_missing_param_not_logged :
    (processQuery Fu enumD [⟨some "search_gmail", pEmpty⟩]).data.errors =
      ["Missing " ++ qm ++ "query" ++ qm ++ " parameter for search_gmail"] ∧
    ("Missing " ++ qm ++ "query" ++ qm ++ " parameter for search_gmail") ∉
      (processQuery Fu enumD [⟨some "search_gmail", pEmpty⟩]).actions_taken := by decide

lemma pairSlash_good {cs : List Char} {pr : List Char × List Char} {rem : List Char}
    (h : pairSlash cs = some (pr, rem)) : GoodPr pr := by
  unfold pairSlash at h
  by_cases h1 : (cs.takeWhile goodChar).isEmpty
  · rw [if_pos h1] at h; simp at h
  · rw [if_neg h1] at h
    cases hd : cs.dropWhile goodChar with
    | nil => rw [hd] at h; simp at h
    | cons c r =>
      rw [hd] at h
      dsimp only at h
      by_cases hc : c = '/'
      · rw [if_pos hc] at h
        by_cases h2 : (r.takeWhile goodChar).isEmpty
        · rw [if_pos h2] at h; simp at h
        · rw [if_neg h2] at h
          have hpr : pr = (cs.takeWhile goodChar, r.takeWhile goodChar) := by
            injection h with h3
            exact (congrArg Prod.fst h3).symm
          subst hpr
          exact ⟨by simpa using h1, by simpa using h2,
            fun x hx => List.mem_takeWhile_imp hx, fun x hx => List.mem_takeWhile_imp hx⟩
      · rw [if_neg hc] at h; simp at h

lemma pairSpaced_good {cs : List Char} {pr : List Char × List Char} {rem : List Char}
    (h : pairSpaced cs = some (pr, rem)) : GoodPr pr := by
  unfold pairSpaced at h
  by_cases h1 : (cs.takeWhile goodChar).isEmpty
  · rw [if_pos h1] at h; simp at h
  · rw [if_neg h1] at h
    cases hd : cs.dropWhile goodChar with
    | nil => rw [hd] at h; simp at h
    | cons c1 t1 =>
      cases t1 with
      | nil => rw [hd] at h; simp at h
      | cons c2 t2 =>
        cases t2 with
        | nil => rw [hd] at h; simp at h
        | cons c3 r =>
          rw [hd] at h
          dsimp only at h
          by_cases hc : c1 = ' ' ∧ c2 = '/' ∧ c3 = ' '
          · rw [if_pos hc] at h
            by_cases h2 : (r.takeWhile goodChar).isEmpty
            · rw [if_pos h2] at h; simp at h
            · rw [if_neg h2] at h
              have hpr : pr = (cs.takeWhile goodChar, r.takeWhile goodChar) := by
                injection h with h3
                exact (congrArg Prod.fst h3).symm
              subst hpr
              exact ⟨by simpa using h1, by simpa using h2,
                fun x hx => List.mem_takeWhile_imp hx, fun x hx => List.mem_takeWhile_imp hx⟩
          · rw [if_neg hc] at h; simp at h

lemma optLit_some {α : Type} {lit : List Char} {k : List Char → Option α} {cs : List Char}
    {v : α} (h : optLit lit k cs = some v) : ∃ r, k r = some v := by
  unfold optLit at h
  cases hm : matchLit lit cs with
  | none => rw [hm] at h; exact ⟨cs, h⟩
  | some r =>
    rw [hm] at h
    dsimp only at h
    cases hk : k r with
    | some w =>
      rw [hk] at h
      injection h with h2
      exact ⟨r, by rw [hk, h2]⟩
    | none => rw [hk] at h; exact ⟨cs, h⟩

lemma p1Try_good {cs : List Char} {pr : List Char × List Char} {rem : List Char}
    (h : p1Try cs = some (pr, rem)) : GoodPr pr := pairSlash_good h

lemma p2Try_good {cs : List Char} {pr : List Char × List Char} {rem : List Char}
    (h : p2Try cs = some (pr, rem)) : GoodPr pr := pairSpaced_good h

lemma p3Try_good {cs : List Char} {pr : List Char × List Char} {rem : List Char}
    (h : p3Try cs = some (pr, rem)) : GoodPr pr := by
  unfold p3Try at h
  cases hm : matchLit "repository ".data cs with
  | none => rw [hm] at h; simp at h
  | some r => rw [hm] at h; exact pairSlash_good h

lemma p4Try_good {cs : List Char} {pr : List Char × List Char} {rem : List Char}
    (h : p4Try cs = some (pr, rem)) : GoodPr pr := by
  unfold p4Try at h
  by_cases h1 : (cs.takeWhile goodChar).isEmpty
  · rw [if_pos h1] at h; simp at h
  · rw [if_neg h1] at h
    cases hm : matchLit lit4 (cs.dropWhile goodChar) with
    | none => rw [hm] at h; simp at h
    | some r =>
      rw [hm] at h
      dsimp only at h
      by_cases h2 : (r.takeWhile goodChar).isEmpty
      · rw [if_pos h2] at h; simp at h
      · rw [if_neg h2] at h
        have hpr : pr = (cs.takeWhile goodChar, r.takeWhile goodChar) := by
          injection h with h3
          exact (congrArg Prod.fst h3).symm
        subst hpr
        exact ⟨by simpa using h1, by simpa using h2,
          fun x hx => List.mem_takeWhile_imp hx, fun x hx => List.mem_takeWhile_imp hx⟩

lemma p5Try_good {cs : List Char} {pr : List Char × List Char} {rem : List Char}
    (h : p5Try cs = some (pr, rem)) : GoodPr pr := by
  unfold p5Try at h
  cases hm : matchLit "Dependabot alert".data cs with
  | none => rw [hm] at h; simp at h
  | some r =>
    rw [hm] at h
    obtain ⟨r2, h2⟩ := optLit_some h
    cases hm2 : matchLit " for ".data r2 with
    | none => rw [hm2] at h2; simp at h2
    | some r3 => rw [hm2] at h2; exact pairSlash_good h2

lemma p6Try_good {cs : List Char} {pr : List Char × List Char} {rem : List Char}
    (h : p6Try cs = some (pr, rem)) : GoodPr pr := by
  unfold p6Try at h
  cases hm : matchLit "Dependabot alert".data cs with
  | none => rw [hm] at h; simp at h
  | some r =>
    rw [hm] at h
    obtain ⟨r2, h2⟩ := optLit_some h
    cases hm2 : matchLit " for ".data r2 with
    | none => rw [hm2] at h2; simp at h2
    | some r3 => rw [hm2] at h2; exact pairSpaced_good h2

lemma tryAcct_good {cs : List Char} {pr : List Char × List Char} {rem : List Char}
    (h : tryAcct cs = some (pr, rem)) : GoodPr pr := by
  unfold tryAcct at h
  by_cases h1 : (cs.takeWhile goodChar).isEmpty
  · rw [if_pos h1] at h; simp at h
  · rw [if_neg h1] at h
    cases hm : matchLit litAcct (cs.dropWhile goodChar) with
    | none => rw [hm] at h; simp at h
    | some r => rw [hm] at h; exact pairSpaced_good h

lemma tryDbot_good {cs : List Char} {pr : List Char × List Char} {rem : List Char}
    (h : tryDbot cs = some (pr, rem)) : GoodPr pr := by
  unfold tryDbot at h
  cases hm : matchLit "[GitHub] ".data cs with
  | none => rw [hm] at h; simp at h
  | some r =>
    rw [hm] at h
    obtain ⟨r1, h1⟩ := optLit_some h
    cases hm1 : matchLit "Dependabot alert".data r1 with
    | none => rw [hm1] at h1; simp at h1
    | some r2 =>
      rw [hm1] at h1
      obtain ⟨r3, h3⟩ := optLit_some h1
      cases hm3 : matchLit " ".data r3 with
      | none => rw [hm3] at h3; simp at h3
      | some r4 =>
        rw [hm3] at h3
        obtain ⟨r5, h5⟩ := optLit_some h3
        cases hm5 : matchLit "for ".data r5 with
        | none => rw [hm5] at h5; simp at h5
        | some r6 => rw [hm5] at h5; exact pairSlash_good h5

lemma findallF_succ (t : List Char → Option ((List Char × List Char) × List Char))
    (n : Nat) (cs : List Char) :
    findallF t (n + 1) cs =
      (match t cs with
       | some x => x.1 :: findallF t n x.2
       | none =>
         match cs with
         | [] => []
         | _ :: rest => findallF t n rest) := rfl

lemma searchF_succ (t : List Char → Option ((List Char × List Char) × List Char))
    (n : Nat) (cs : List Char) :
    searchF t (n + 1) cs =
      (match t cs with
       | some x => some x.1
       | none =>
         match cs with
         | [] => none
         | _ :: rest => searchF t n rest) := rfl

lemma findallF_good {t : List Char → Option ((List Char × List Char) × List Char)}
    (ht : ∀ {cs pr rem}, t cs = some (pr, rem) → GoodPr pr) :
    ∀ (fuel : Nat) (cs : List Char) (pr : List Char × List Char),
      pr ∈ findallF t fuel cs → GoodPr pr := by
  intro fuel
  induction fuel with
  | zero => intro cs pr h; simp [findallF] at h
  | succ n ih =>
    intro cs pr h
    rw [findallF_succ] at h
    cases hm : t cs with
    | some x =>
      rw [hm] at h
      dsimp only at h
      rcases List.mem_cons.mp h with he | hmem
      · subst he; exact @ht cs x.1 x.2 hm
      · exact ih x.2 pr hmem
    | none =>
      rw [hm] at h
      cases cs with
      | nil => simp at h
      | cons c rest => exact ih rest pr h

lemma searchF_good {t : List Char → Option ((List Char × List Char) × List Char)}
    (ht : ∀ {cs pr rem}, t cs = some (pr, rem) → GoodPr pr) :
    ∀ (fuel : Nat) (cs : List Char) (pr : List Char × List Char),
      searchF t fuel cs = some pr → GoodPr pr := by
  intro fuel
  induction fuel with
  | zero => intro cs pr h; simp [searchF] at h
  | succ n ih =>
    intro cs pr h
    rw [searchF_succ] at h
    cases hm : t cs with
    | some x =>
      rw [hm] at h
      dsimp only at h
      injection h with h2
      subst h2
      exact @ht cs x.1 x.2 hm
    | none =>
      rw [hm] at h
      cases cs with
      | nil => simp at h
      | cons c rest => exact ih rest pr h

lemma goodChar_not_ws {c : Char} (h : goodChar c = true) : isWS c = false := by
  by_contra hw
  rw [Bool.not_eq_false] at hw
  simp only [isWS, Bool.or_eq_true, decide_eq_true_eq] at hw
  rcases hw with ((((h1 | h1) | h1) | h1) | h1) | h1 <;> subst h1 <;> exact absurd h (by decide)

lemma dropWhile_false {p : Char → Bool} {l : List Char} (h : ∀ c ∈ l, p c = false) :
    l.dropWhile p = l := by
  cases l with
  | nil => rfl
  | cons c t => rw [List.dropWhile_cons, h c (List.mem_cons_self c t)]; simp

lemma pyStrip_good {l : List Char} (h : ∀ c ∈ l, goodChar c) : pyStrip l = l := by
  unfold pyStrip
  have h1 : ∀ c ∈ l, isWS c = false := fun c hc => goodChar_not_ws (h c hc)
  rw [dropWhile_false h1, dropWhile_false (fun c hc => h1 c (List.mem_reverse.mp hc)),
    List.reverse_reverse]

lemma takeWhile_good_app {a : List Char} (ha : ∀ c ∈ a, goodChar c) (b : List Char) :
    (a ++ '/' :: b).takeWhile goodChar = a ∧ (a ++ '/' :: b).dropWhile goodChar = '/' :: b := by
  induction a with
  | nil =>
    have hs : goodChar '/' = false := by decide
    constructor
    · simp [List.takeWhile_cons, hs]
    · simp [List.dropWhile_cons, hs]
  | cons c t ih =>
    have hc : goodChar c = true := ha c (by simp)
    have iht := ih (fun x hx => ha x (by simp [hx]))
    constructor
    · simp [List.takeWhile_cons, hc, iht.1]
    · simp [List.dropWhile_cons, hc, iht.2]

lemma mkName_shape {pr : List Char × List Char} (h : GoodPr pr) : shapeOK (mkName pr) = true := by
  obtain ⟨h1, h2, h3, h4⟩ := h
  unfold mkName
  rw [pyStrip_good h3, pyStrip_good h4]
  have ht := takeWhile_good_app h3 pr.2
  unfold shapeOK
  rw [ht.1, ht.2]
  dsimp only
  simp [h1, h2, List.all_eq_true, List.isEmpty_iff]
  exact h4

lemma textRepos_shape {t : List Char} {r : List Char} (h : r ∈ textRepos t) :
    shapeOK r = true := by
  unfold textRepos at h
  obtain ⟨pr, hpr, hr⟩ := List.mem_map.mp h
  subst hr
  apply mkName_shape
  simp only [List.mem_append] at hpr
  rcases hpr with ((((h1 | h1) | h1) | h1) | h1) | h1
  · exact findallF_good (fun h => p1Try_good h) _ _ _ h1
  · exact findallF_good (fun h => p2Try_good h) _ _ _ h1
  · exact findallF_good (fun h => p3Try_good h) _ _ _ h1
  · exact findallF_good (fun h => p4Try_good h) _ _ _ h1
  · exact findallF_good (fun h => p5Try_good h) _ _ _ h1
  · exact findallF_good (fun h => p6Try_good h) _ _ _ h1

lemma emailRepos_shape {em : Email} {r : List Char} (h : r ∈ emailRepos em) :
    shapeOK r = true := by
  unfold emailRepos at h
  simp only [List.mem_append] at h
  rcases h with ((h1 | h1) | h1) | h1
  · exact textRepos_shape h1
  · exact textRepos_shape h1
  · cases hs : searchF tryAcct (em.snippet.data.length + 1) em.snippet.data with
    | none => rw [hs] at h1; simp at h1
    | some pr =>
      rw [hs] at h1
      have : r = mkName pr := by simpa using h1
      subst this
      exact mkName_shape (searchF_good (fun h => tryAcct_good h) _ _ _ hs)
  · cases hs : searchF tryDbot (em.subject.data.length + 1) em.subject.data with
    | none => rw [hs] at h1; simp at h1
    | some pr =>
      rw [hs] at h1
      have : r = mkName pr := by simpa using h1
      subst this
      exact mkName_shape (searchF_good (fun h => tryDbot_good h) _ _ _ hs)

lemma foldl_repos_mem : ∀ (emails : List Email) (acc : List (List Char)) (x : List Char),
    x ∈ emails.foldl (fun acc em => acc ++ emailRepos em) acc →
    x ∈ acc ∨ ∃ em, em ∈ emails ∧ x ∈ emailRepos em := by
  intro emails
  induction emails with
  | nil => intro acc x h; exact Or.inl h
  | cons e t ih =>
    intro acc x h
    rcases ih (acc ++ emailRepos e) x h with h1 | ⟨em, hm, hx⟩
    · rcases List.mem_append.mp h1 with h2 | h2
      · exact Or.inl h2
      · exact Or.inr ⟨e, by simp, h2⟩
    · exact Or.inr ⟨em, by simp [hm], hx⟩

lemma extractRaw_shape {emails : List Email} {s : String} (h : s ∈ extractRaw emails) :
    shapeOK s.data = true := by
  unfold extractRaw at h
  obtain ⟨l, hl, hs⟩ := List.mem_map.mp h
  subst hs
  show shapeOK l = true
  rcases foldl_repos_mem emails [] l hl with h1 | ⟨em, _, hx⟩
  · simp at h1
  · exact emailRepos_shape hx

lemma shapeOK_no_space {cs : List Char} (h : shapeOK cs = true) {c : Char} (hc : c ∈ cs) :
    c ≠ ' ' := by
  unfold shapeOK at h
  rw [Bool.and_eq_true] at h
  obtain ⟨h1, h2⟩ := h
  have hgs : goodChar ' ' = false := by decide
  rw [← List.takeWhile_append_dropWhile (p := goodChar) (l := cs)] at hc
  rcases List.mem_append.mp hc with hm | hm
  · have hg := List.mem_takeWhile_imp hm
    intro he; rw [he] at hg; exact absurd hg (by decide)
  · cases hd : cs.dropWhile goodChar with
    | nil => rw [hd] at hm; simp at hm
    | cons c0 r =>
      rw [hd] at hm h2
      dsimp only at h2
      rw [Bool.and_eq_true, Bool.and_eq_true] at h2
      obtain ⟨⟨hc0, _⟩, hall⟩ := h2
      rw [decide_eq_true_eq] at hc0
      rcases List.mem_cons.mp hm with he | hmr
      · subst he; subst hc0; decide
      · have hg := List.all_eq_true.mp hall _ hmr
        intro he; rw [he] at hg; exact absurd hg (by simpa using hgs)

lemma stripSpaces_id {s : String} (h : ∀ c ∈ s.data, c ≠ ' ') : stripSpaces s = s := by
  unfold stripSpaces
  have hf : s.data.filter (fun c => c ≠ ' ') = s.data :=
    List.filter_eq_self.mpr (by intro a ha; simpa using h a ha)
  rw [hf]

lemma fanAlertsStep_inl_actions (F : Facades) (st : RunState) (r : String) (st2 : RunState)
    (h : fanAlertsStep F st r = Sum.inl st2) :
    ∃ tl, st2.actions = st.actions ++ (("Getting repository alerts for: " ++ r) :: tl) := by
  unfold fanAlertsStep at h
  cases hF : F.get_repository_alerts r with
  | error e => rw [hF] at h; simp at h
  | ok alerts =>
    rw [hF] at h
    dsimp only at h
    cases alerts with
    | nil =>
      injection h with h2
      subst h2
      exact ⟨[], rfl⟩
    | cons a t =>
      dsimp only at h
      by_cases ha : a.err
      · rw [if_pos ha] at h
        injection h with h2
        subst h2
        exact ⟨["Error getting alerts for " ++ r ++ ": " ++ a.msg.getD "Unknown error"], rfl⟩
      · rw [if_neg ha] at h
        injection h with h2
        subst h2
        exact ⟨[], rfl⟩

lemma fanIssuesStep_inl_actions (F : Facades) (state : String) (st : RunState) (r : String)
    (st2 : RunState) (h : fanIssuesStep F state st r = Sum.inl st2) :
    ∃ tl, st2.actions = st.actions ++ (("Getting repository issues for: " ++ r) :: tl) := by
  unfold fanIssuesStep at h
  cases hF : F.get_repository_issues r state with
  | error e => rw [hF] at h; simp at h
  | ok issues =>
    rw [hF] at h
    dsimp only at h
    cases issues with
    | nil =>
      injection h with h2
      subst h2
      exact ⟨[], rfl⟩
    | cons a t =>
      dsimp only at h
      by_cases ha : a.err
      · rw [if_pos ha] at h
        injection h with h2
        subst h2
        exact ⟨["Error getting issues for " ++ r ++ ": " ++ a.msg.getD "Unknown error"], rfl⟩
      · rw [if_neg ha] at h
        injection h with h2
        subst h2
        exact ⟨[], rfl⟩

lemma fanStructsStep_inl_actions (F : Facades) (depth : Nat) (st : RunState) (r : String)
    (st2 : RunState) (h : fanStructsStep F depth st r = Sum.inl st2) :
    ∃ tl, st2.actions = st.actions ++ (("Getting repository structure for: " ++ r) :: tl) := by
  unfold fanStructsStep at h
  cases hF : F.get_repository_structure r depth with
  | error e => rw [hF] at h; simp at h
  | ok d =>
    rw [hF] at h
    dsimp only at h
    by_cases hd : !d.empty && d.err
    · rw [if_pos hd] at h
      injection h with h2
      subst h2
      exact ⟨["Error getting structure for " ++ r ++ ": " ++ d.msg.getD "Unknown error"], rfl⟩
    · rw [if_neg hd] at h
      injection h with h2
      subst h2
      exact ⟨[], rfl⟩

lemma fanContentsStep_inl_actions (F : Facades) (path : String) (st : RunState) (r : String)
    (st2 : RunState) (h : fanContentsStep F path st r = Sum.inl st2) :
    ∃ tl, st2.actions =
      st.actions ++ (("Getting repository contents for: " ++ r ++ ", path: " ++ path) :: tl) := by
  unfold fanContentsStep at h
  cases hF : F.get_repository_contents r path with
  | error e => rw [hF] at h; simp at h
  | ok cts =>
    rw [hF] at h
    dsimp only at h
    cases cts with
    | nil =>
      injection h with h2
      subst h2
      exact ⟨[], rfl⟩
    | cons a t =>
      dsimp only at h
      by_cases ha : a.err
      · rw [if_pos ha] at h
        injection h with h2
        subst h2
        exact ⟨["Error getting contents for " ++ r ++ ": " ++ a.msg.getD "Unknown error"], rfl⟩
      · rw [if_neg ha] at h
        injection h with h2
        subst h2
        exact ⟨[], rfl⟩

lemma fanAlerts_order (F : Facades) : ∀ (l : List String) (st stf : RunState),
    fanAlerts F st l = Sum.inl stf →
    ∃ da, stf.actions = st.actions ++ da ∧
      (l.map (fun r => "Getting repository alerts for: " ++ r)).Sublist da := by
  intro l
  induction l with
  | nil =>
    intro st stf h
    rw [show fanAlerts F st [] = Sum.inl st from rfl] at h
    injection h with h2
    subst h2
    exact ⟨[], by simp, by simp⟩
  | cons r rest ih =>
    intro st stf h
    rw [show fanAlerts F st (r :: rest) =
      (match fanAlertsStep F st r with
       | .inl st2 => fanAlerts F st2 rest
       | .inr q => .inr q) from rfl] at h
    cases hs : fanAlertsStep F st r with
    | inr q => rw [hs] at h; simp at h
    | inl st2 =>
      rw [hs] at h
      dsimp only at h
      obtain ⟨tl, htl⟩ := fanAlertsStep_inl_actions F st r st2 hs
      obtain ⟨da, hda, hsub⟩ := ih st2 stf h
      refine ⟨(("Getting repository alerts for: " ++ r) :: tl) ++ da, ?_, ?_⟩
      · rw [hda, htl, List.append_assoc]
      · rw [List.map_cons, List.cons_append]
        exact List.Sublist.cons₂ _ (hsub.trans (List.sublist_append_right tl da))

lemma fanIssues_order (F : Facades) (state : String) : ∀ (l : List String) (st stf : RunState),
    fanIssues F state st l = Sum.inl stf →
    ∃ da, stf.actions = st.actions ++ da ∧
      (l.map (fun r => "Getting repository issues for: " ++ r)).Sublist da := by
  intro l
  induction l with
  | nil =>
    intro st stf h
    rw [show fanIssues F state st [] = Sum.inl st from rfl] at h
    injection h with h2
    subst h2
    exact ⟨[], by simp, by simp⟩
  | cons r rest ih =>
    intro st stf h
    rw [show fanIssues F state st (r :: rest) =
      (match fanIssuesStep F state st r with
       | .inl st2 => fanIssues F state st2 rest
       | .inr q => .inr q) from rfl] at h
    cases hs : fanIssuesStep F state st r with
    | inr q => rw [hs] at h; simp at h
    | inl st2 =>
      rw [hs] at h
      dsimp only at h
      obtain ⟨tl, htl⟩ := fanIssuesStep_inl_actions F state st r st2 hs
      obtain ⟨da, hda, hsub⟩ := ih st2 stf h
      refine ⟨(("Getting repository issues for: " ++ r) :: tl) ++ da, ?_, ?_⟩
      · rw [hda, htl, List.append_assoc]
      · rw [List.map_cons, List.cons_append]
        exact List.Sublist.cons₂ _ (hsub.trans (List.sublist_append_right tl da))

lemma fanStructs_order (F : Facades) (depth : Nat) : ∀ (l : List String) (st stf : RunState),
    fanStructs F depth st l = Sum.inl stf →
    ∃ da, stf.actions = st.actions ++ da ∧
      (l.map (fun r => "Getting repository structure for: " ++ r)).Sublist da := by
  intro l
  induction l with
  | nil =>
    intro st stf h
    rw [show fanStructs F depth st [] = Sum.inl st from rfl] at h
    injection h with h2
    subst h2
    exact ⟨[], by simp, by simp⟩
  | cons r rest ih =>
    intro st stf h
    rw [show fanStructs F depth st (r :: rest) =
      (match fanStructsStep F depth st r with
       | .inl st2 => fanStructs F depth st2 rest
       | .inr q => .inr q) from rfl] at h
    cases hs : fanStructsStep F depth st r with
    | inr q => rw [hs] at h; simp at h
    | inl st2 =>
      rw [hs] at h
      dsimp only at h
      obtain ⟨tl, htl⟩ := fanStructsStep_inl_actions F depth st r st2 hs
      obtain ⟨da, hda, hsub⟩ := ih st2 stf h
      refine ⟨(("Getting repository structure for: " ++ r) :: tl) ++ da, ?_, ?_⟩
      · rw [hda, htl, List.append_assoc]
      · rw [List.map_cons, List.cons_append]
        exact List.Sublist.cons₂ _ (hsub.trans (List.sublist_append_right tl da))

lemma fanContents_order (F : Facades) (path : String) : ∀ (l : List String) (st stf : RunState),
    fanContents F path st l = Sum.inl stf →
    ∃ da, stf.actions = st.actions ++ da ∧
      (l.map (fun r => "Getting repository contents for: " ++ r ++ ", path: " ++ path)).Sublist da := by
  intro l
  induction l with
  | nil =>
    intro st stf h
    rw [show fanContents F path st [] = Sum.inl st from rfl] at h
    injection h with h2
    subst h2
    exact ⟨[], by simp, by simp⟩
  | cons r rest ih =>
    intro st stf h
    rw [show fanContents F path st (r :: rest) =
      (match fanContentsStep F path st r with
       | .inl st2 => fanContents F path st2 rest
       | .inr q => .inr q) from rfl] at h
    cases hs : fanContentsStep F path st r with
    | inr q => rw [hs] at h; simp at h
    | inl st2 =>
      rw [hs] at h
      dsimp only at h
      obtain ⟨tl, htl⟩ := fanContentsStep_inl_actions F path st r st2 hs
      obtain ⟨da, hda, hsub⟩ := ih st2 stf h
      refine ⟨(("Getting repository contents for: " ++ r ++ ", path: " ++ path) :: tl) ++ da, ?_, ?_⟩
      · rw [hda, htl, List.append_assoc]
      · rw [List.map_cons, List.cons_append]
        exact List.Sublist.cons₂ _ (hsub.trans (List.sublist_append_right tl da))

/-- C4 (amended): for every valid iteration order of the dedup set,
`extracted_repo_names` contains no duplicates and no embedded whitespace and
its membership order is exactly that set-iteration order (the cleanup map is
the identity on it), which need not be the insertion order of first
discovery (see the counterexample); a repo-scoped step with a falsy
`repo_name` and a nonempty extraction runs its fan-out loop over
`extracted_repo_names` itself; and every completed fan-out emits its
per-identifier attempt lines in exactly the order of that deduplicated
list. -/
theorem C4_order_and_content :
    (∀ (emails : List Email) (enum : List String → List String),
      IsSetEnum (extractRaw emails) (enum (extractRaw emails)) →
      (extractClean enum emails).Nodup ∧
      (∀ s ∈ extractClean enum emails, ∀ c ∈ s.data, c ≠ ' ') ∧
      extractClean enum emails = enum (extractRaw emails)) ∧
    (∀ (F : Facades) (enum : List String → List String) (st : RunState) (p : Params),
      tv p.repo_name = none → st.extracted.isEmpty = false →
      tryBody F enum st ⟨some "get_repo_alerts", p⟩ = fanAlerts F st st.extracted ∧
      tryBody F enum st ⟨some "get_repo_issues", p⟩ =
        fanIssues F (p.state.getD "open") st st.extracted ∧
      tryBody F enum st ⟨some "get_repo_structure", p⟩ =
        fanStructs F (p.max_depth.getD 3) st st.extracted ∧
      tryBody F enum st ⟨some "get_repo_contents", p⟩ =
        fanContents F (p.path.getD "") st st.extracted) ∧
    (∀ (F : Facades) (l : List String) (st stf : RunState),
      fanAlerts F st l = Sum.inl stf →
      ∃ da, stf.actions = st.actions ++ da ∧
        (l.map (fun r => "Getting repository alerts for: " ++ r)).Sublist da) ∧
    (∀ (F : Facades) (state : String) (l : List String) (st stf : RunState),
      fanIssues F state st l = Sum.inl stf →
      ∃ da, stf.actions = st.actions ++ da ∧
        (l.map (fun r => "Getting repository issues for: " ++ r)).Sublist da) ∧
    (∀ (F : Facades) (depth : Nat) (l : List String) (st stf : RunState),
      fanStructs F depth st l = Sum.inl stf →
      ∃ da, stf.actions = st.actions ++ da ∧
        (l.map (fun r => "Getting repository structure for: " ++ r)).Sublist da) ∧
    (∀ (F : Facades) (path : String) (l : List String) (st stf : RunState),
      fanContents F path st l = Sum.inl stf →
      ∃ da, stf.actions = st.actions ++ da ∧
        (l.map (fun r => "Getting repository contents for: " ++ r ++ ", path: " ++ path)).Sublist da) := by
  refine ⟨?_, ?_, fanAlerts_order, fanIssues_order, fanStructs_order, fanContents_order⟩
  · intro emails enum h
    obtain ⟨hnd, _, hsub⟩ := h
    have hns : ∀ s ∈ enum (extractRaw emails), ∀ c ∈ s.data, c ≠ ' ' := by
      intro s hs c hc
      exact shapeOK_no_space (extractRaw_shape (hsub hs)) hc
    have hid : ∀ s ∈ enum (extractRaw emails), stripSpaces s = s :=
      fun s hs => stripSpaces_id (hns s hs)
    have hmap : extractClean enum emails = enum (extractRaw emails) := by
      unfold extractClean cleanRepos
      conv_rhs => rw [← List.map_id (enum (extractRaw emails))]
      exact List.map_congr_left hid
    rw [hmap]
    exact ⟨hnd, hns, rfl⟩
  · intro F enum st p htv hx
    refine ⟨?_, ?_, ?_, ?_⟩
    · unfold tryBody
      dsimp only
      rw [if_neg (by decide), if_neg (by decide), if_neg (by decide), if_pos rfl]
      unfold bAlerts
      rw [htv]
      dsimp only
      rw [if_neg (by simp [hx])]
    · unfold tryBody
      dsimp only
      rw [if_neg (by decide), if_neg (by decide), if_neg (by decide), if_neg (by decide),
        if_pos rfl]
      unfold bIssues
      rw [htv]
      dsimp only
      rw [if_neg (by simp [hx])]
    · unfold tryBody
      dsimp only
      rw [if_neg (by decide), if_neg (by decide), if_neg (by decide), if_neg (by decide),
        if_neg (by decide), if_pos rfl]
      unfold bStructs
      rw [htv]
      dsimp only
      rw [if_neg (by simp [hx])]
    · unfold tryBody
      dsimp only
      rw [if_neg (by decide), if_neg (by decide), if_neg (by decide), if_neg (by decide),
        if_neg (by decide), if_neg (by decide), if_pos rfl]
      unfold bContents
      rw [htv]
      dsimp only
      rw [if_neg (by simp [hx])]

theorem C4_order_and_content_witness :
    (IsSetEnum (extractRaw [⟨"a/b", ""⟩]) (enumD (extractRaw [⟨"a/b", ""⟩])) ∧
      (extractClean enumD [⟨"a/b", ""⟩]).Nodup ∧
      (∀ s ∈ extractClean enumD [⟨"a/b", ""⟩], ∀ c ∈ s.data, c ≠ ' ') ∧
      extractClean enumD [⟨"a/b", ""⟩] = enumD (extractRaw [⟨"a/b", ""⟩])) ∧
    (tv pEmpty.repo_name = none ∧
      (⟨⟨[], [], [], [], [], [], none, []⟩, [], ["a/b"]⟩ : RunState).extracted.isEmpty = false ∧
      (tryBody Fu enumD ⟨⟨[], [], [], [], [], [], none, []⟩, [], ["a/b"]⟩ ⟨some "get_repo_alerts", pEmpty⟩ =
        fanAlerts Fu ⟨⟨[], [], [], [], [], [], none, []⟩, [], ["a/b"]⟩
          (⟨⟨[], [], [], [], [], [], none, []⟩, [], ["a/b"]⟩ : RunState).extracted ∧
      tryBody Fu enumD ⟨⟨[], [], [], [], [], [], none, []⟩, [], ["a/b"]⟩ ⟨some "get_repo_issues", pEmpty⟩ =
        fanIssues Fu (pEmpty.state.getD "open") ⟨⟨[], [], [], [], [], [], none, []⟩, [], ["a/b"]⟩
          (⟨⟨[], [], [], [], [], [], none, []⟩, [], ["a/b"]⟩ : RunState).extracted ∧
      tryBody Fu enumD ⟨⟨[], [], [], [], [], [], none, []⟩, [], ["a/b"]⟩ ⟨some "get_repo_structure", pEmpty⟩ =
        fanStructs Fu (pEmpty.max_depth.getD 3) ⟨⟨[], [], [], [], [], [], none, []⟩, [], ["a/b"]⟩
          (⟨⟨[], [], [], [], [], [], none, []⟩, [], ["a/b"]⟩ : RunState).extracted ∧
      tryBody Fu enumD ⟨⟨[], [], [], [], [], [], none, []⟩, [], ["a/b"]⟩ ⟨some "get_repo_contents", pEmpty⟩ =
        fanContents Fu (pEmpty.path.getD "") ⟨⟨[], [], [], [], [], [], none, []⟩, [], ["a/b"]⟩
          (⟨⟨[], [], [], [], [], [], none, []⟩, [], ["a/b"]⟩ : RunState).extracted)) ∧
    (fanAlerts { Fu with get_repository_alerts := fun _ => Except.ok [] } initState ["a/b", "c/d"] =
      Sum.inl ⟨⟨[], [], [], [("a/b", []), ("c/d", [])], [], [], none, []⟩,
        ["Getting repository alerts for: a/b", "Getting repository alerts for: c/d"], []⟩ ∧
      ∃ da, (⟨⟨[], [], [], [("a/b", []), ("c/d", [])], [], [], none, []⟩,
          ["Getting repository alerts for: a/b", "Getting repository alerts for: c/d"], []⟩ :
            RunState).actions = initState.actions ++ da ∧
        (["a/b", "c/d"].map (fun r => "Getting repository alerts for: " ++ r)).Sublist da) ∧
    (fanIssues { Fu with get_repository_issues := fun _ _ => Except.ok [] } "open" initState ["a/b"] =
      Sum.inl ⟨⟨[], [], [], [], [("a/b", [])], [], none, []⟩,
        ["Getting repository issues for: a/b"], []⟩ ∧
      ∃ da, (⟨⟨[], [], [], [], [("a/b", [])], [], none, []⟩,
          ["Getting repository issues for: a/b"], []⟩ : RunState).actions =
            initState.actions ++ da ∧
        (["a/b"].map (fun r => "Getting repository issues for: " ++ r)).Sublist da) ∧
    (fanStructs { Fu with get_repository_structure := fun _ _ => Except.ok ⟨true, false, none, 0⟩ }
        3 initState ["a/b"] =
      Sum.inl ⟨⟨[], [], [], [], [], [("a/b", ⟨true, false, none, 0⟩)], none, []⟩,
        ["Getting repository structure for: a/b"], []⟩ ∧
      ∃ da, (⟨⟨[], [], [], [], [], [("a/b", ⟨true, false, none, 0⟩)], none, []⟩,
          ["Getting repository structure for: a/b"], []⟩ : RunState).actions =
            initState.actions ++ da ∧
        (["a/b"].map (fun r => "Getting repository structure for: " ++ r)).Sublist da) ∧
    (fanContents { Fu with get_repository_contents := fun _ _ => Except.ok [] } "" initState ["a/b"] =
      Sum.inl ⟨⟨[], [], [], [], [], [], some [("a/b", [])], []⟩,
        ["Getting repository contents for: a/b, path: "], []⟩ ∧
      ∃ da, (⟨⟨[], [], [], [], [], [], some [("a/b", [])], []⟩,
          ["Getting repository contents for: a/b, path: "], []⟩ : RunState).actions =
            initState.actions ++ da ∧
        (["a/b"].map (fun r => "Getting repository contents for: " ++ r ++ ", path: " ++ "")).Sublist da) :=
  ⟨⟨by decide, C4_order_and_content.1 [⟨"a/b", ""⟩] enumD (by decide)⟩,
   ⟨rfl, by decide,
    C4_order_and_content.2.1 Fu enumD ⟨⟨[], [], [], [], [], [], none, []⟩, [], ["a/b"]⟩ pEmpty
      rfl (by decide)⟩,
   ⟨by decide,
    C4_order_and_content.2.2.1 { Fu with get_repository_alerts := fun _ => Except.ok [] }
      ["a/b", "c/d"] initState
      ⟨⟨[], [], [], [("a/b", []), ("c/d", [])], [], [], none, []⟩,
        ["Getting repository alerts for: a/b", "Getting repository alerts for: c/d"], []⟩
      (by decide)⟩,
   ⟨by decide,
    C4_order_and_content.2.2.2.1 { Fu with get_repository_issues := fun _ _ => Except.ok [] }
      "open" ["a/b"] initState
      ⟨⟨[], [], [], [], [("a/b", [])], [], none, []⟩, ["Getting repository issues for: a/b"], []⟩
      (by decide)⟩,
   ⟨by decide,
    C4_order_and_content.2.2.2.2.1
      { Fu with get_repository_structure := fun _ _ => Except.ok ⟨true, false, none, 0⟩ }
      3 ["a/b"] initState
      ⟨⟨[], [], [], [], [], [("a/b", ⟨true, false, none, 0⟩)], none, []⟩,
        ["Getting repository structure for: a/b"], []⟩
      (by decide)⟩,
   ⟨by decide,
    C4_order_and_content.2.2.2.2.2 { Fu with get_repository_contents := fun _ _ => Except.ok [] }
      "" ["a/b"] initState
      ⟨⟨[], [], [], [], [], [], some [("a/b", [])], []⟩,
        ["Getting repository contents for: a/b, path: "], []⟩
      (by decide)⟩⟩

/-- C10: every identifier produced by the extractor, under any valid dedup
iteration order, has the shape `owner/name`: exactly one slash, with the
owner and name parts nonempty and drawn from `[a-zA-Z0-9\-_]`. -/
theorem C10_owner_name_shape (emails : List Email) (enum : List String → List String)
    (h : IsSetEnum (extractRaw emails) (enum (extractRaw emails))) :
    ∀ s ∈ extractClean enum emails, shapeOK s.data = true := by
  obtain ⟨_, _, hsub⟩ := h
  intro s hs
  unfold extractClean cleanRepos at hs
  obtain ⟨x, hx, hxs⟩ := List.mem_map.mp hs
  subst hxs
  have hsh := extractRaw_shape (hsub hx)
  rw [stripSpaces_id (fun c hc => shapeOK_no_space hsh hc)]
  exact hsh

theorem C10_owner_name_shape_witness :
    IsSetEnum (extractRaw [em9]) (enumD (extractRaw [em9])) ∧
    "acme/widgets" ∈ extractClean enumD [em9] ∧
    shapeOK "acme/widgets".data = true :=
  ⟨by decide, by decide,
   C10_owner_name_shape [em9] enumD (by decide) "acme/widgets" (by decide)⟩

lemma nodup_same_mem_singleton {e : List String} {x : String} (hnd : e.Nodup)
    (hmem : ∀ y, y ∈ e ↔ y = x) : e = [x] := by
  cases e with
  | nil => exact absurd ((hmem x).mpr rfl) (by simp)
  | cons a t =>
    have ha : a = x := (hmem a).mp (by simp)
    subst ha
    cases t with
    | nil => rfl
    | cons b t2 =>
      have hb : b = a := (hmem b).mp (by simp)
      subst hb
      simp at hnd

/-- C9: for the single message with subject
`[GitHub] Dependabot alerts summary for acme/widgets` and empty snippet,
the extractor yields exactly `acme/widgets`, under every valid dedup
iteration order. -/
theorem C9_dependabot_scenario (enum : List String → List String)
    (h : IsSetEnum (extractRaw [em9]) (enum (extractRaw [em9]))) :
    extractClean enum [em9] = ["acme/widgets"] := by
  obtain ⟨hnd, hsub1, hsub2⟩ := h
  have hraw : extractRaw [em9] = ["acme/widgets", "acme/widgets"] := by decide
  have hmem : ∀ y, y ∈ enum (extractRaw [em9]) ↔ y = "acme/widgets" := by
    intro y
    constructor
    · intro hy
      have := hsub2 hy
      rw [hraw] at this
      simpa using this
    · intro hy
      subst hy
      exact hsub1 (by rw [hraw]; simp)
  have he : enum (extractRaw [em9]) = ["acme/widgets"] := nodup_same_mem_singleton hnd hmem
  unfold extractClean cleanRepos
  rw [he]
  decide

theorem C9_dependabot_scenario_witness :
    IsSetEnum (extractRaw [em9]) (enumD (extractRaw [em9])) ∧
    extractClean enumD [em9] = ["acme/widgets"] :=
  ⟨by decide, C9_dependabot_scenario enumD (by decide)⟩

lemma logFrame_refl (st : RunState) : LogFrame st st :=
  ⟨[], [], by simp, by simp, by simp⟩

lemma logFrame_trans {a b c : RunState} (h1 : LogFrame a b) (h2 : LogFrame b c) :
    LogFrame a c := by
  obtain ⟨da1, de1, ha1, he1, hm1⟩ := h1
  obtain ⟨da2, de2, ha2, he2, hm2⟩ := h2
  refine ⟨da1 ++ da2, de1 ++ de2, ?_, ?_, ?_⟩
  · rw [ha2, ha1, List.append_assoc]
  · rw [he2, he1, List.append_assoc]
  · intro m hm
    rcases List.mem_append.mp hm with h | h
    · exact List.mem_append.mpr (Or.inl (hm1 m h))
    · exact List.mem_append.mpr (Or.inr (hm2 m h))

lemma logFrameM_of_frame {a b : RunState} (h : LogFrame a b) : LogFrameM a b := by
  obtain ⟨da, de, ha, he, hm⟩ := h
  exact ⟨da, de, ha, he, fun m hmm => Or.inl (hm m hmm)⟩

lemma logFrameM_trans {a b c : RunState} (h1 : LogFrameM a b) (h2 : LogFrameM b c) :
    LogFrameM a c := by
  obtain ⟨da1, de1, ha1, he1, hm1⟩ := h1
  obtain ⟨da2, de2, ha2, he2, hm2⟩ := h2
  refine ⟨da1 ++ da2, de1 ++ de2, ?_, ?_, ?_⟩
  · rw [ha2, ha1, List.append_assoc]
  · rw [he2, he1, List.append_assoc]
  · intro m hm
    rcases List.mem_append.mp hm with h | h
    · rcases hm1 m h with h3 | h3
      · exact Or.inl (List.mem_append.mpr (Or.inl h3))
      · exact Or.inr h3
    · rcases hm2 m h with h3 | h3
      · exact Or.inl (List.mem_append.mpr (Or.inr h3))
      · exact Or.inr h3

lemma fanAlertsStep_frame (F : Facades) (st : RunState) (r : String) :
    LogFrame st (stOf (fanAlertsStep F st r)) ∧
    (stOf (fanAlertsStep F st r)).rd.repository_contents = st.rd.repository_contents ∧
    (stOf (fanAlertsStep F st r)).extracted = st.extracted := by
  unfold fanAlertsStep
  cases hF : F.get_repository_alerts r with
  | error e =>
    dsimp only
    exact ⟨⟨["Getting repository alerts for: " ++ r], [], by simp [stOf, addAct],
      by simp [stOf, addAct], by simp⟩, rfl, rfl⟩
  | ok alerts =>
    dsimp only
    cases alerts with
    | nil =>
      exact ⟨⟨["Getting repository alerts for: " ++ r], [], by simp [stOf],
        by simp [stOf], by simp⟩, rfl, rfl⟩
    | cons a t =>
      dsimp only
      by_cases ha : a.err
      · rw [if_pos ha]
        refine ⟨⟨["Getting repository alerts for: " ++ r,
          "Error getting alerts for " ++ r ++ ": " ++ a.msg.getD "Unknown error"],
          ["Error getting alerts for " ++ r ++ ": " ++ a.msg.getD "Unknown error"],
          by simp [stOf], by simp [stOf, addErr], by simp⟩, rfl, rfl⟩
      · rw [if_neg ha]
        exact ⟨⟨["Getting repository alerts for: " ++ r], [], by simp [stOf],
          by simp [stOf], by simp⟩, rfl, rfl⟩

lemma fanAlerts_frame (F : Facades) : ∀ (l : List String) (st : RunState),
    LogFrame st (stOf (fanAlerts F st l)) ∧
    (stOf (fanAlerts F st l)).rd.repository_contents = st.rd.repository_contents ∧
    (stOf (fanAlerts F st l)).extracted = st.extracted := by
  intro l
  induction l with
  | nil => intro st; exact ⟨logFrame_refl st, rfl, rfl⟩
  | cons r rest ih =>
    intro st
    have hcons : fanAlerts F st (r :: rest) =
        (match fanAlertsStep F st r with
         | .inl st2 => fanAlerts F st2 rest
         | .inr p => .inr p) := rfl
    rw [hcons]
    cases hs : fanAlertsStep F st r with
    | inl st2 =>
      have hstep := fanAlertsStep_frame F st r
      rw [hs] at hstep
      dsimp only [stOf] at hstep
      dsimp only
      obtain ⟨hlf, hc, he⟩ := hstep
      obtain ⟨hlf2, hc2, he2⟩ := ih st2
      exact ⟨logFrame_trans hlf hlf2, by rw [hc2, hc], by rw [he2, he]⟩
    | inr p =>
      obtain ⟨s, e⟩ := p
      have hstep := fanAlertsStep_frame F st r
      rw [hs] at hstep
      dsimp only [stOf] at hstep ⊢
      exact hstep

lemma fanIssuesStep_frame (F : Facades) (state : String) (st : RunState) (r : String) :
    LogFrame st (stOf (fanIssuesStep F state st r)) ∧
    (stOf (fanIssuesStep F state st r)).rd.repository_contents = st.rd.repository_contents ∧
    (stOf (fanIssuesStep F state st r)).extracted = st.extracted := by
  unfold fanIssuesStep
  cases hF : F.get_repository_issues r state with
  | error e =>
    dsimp only
    exact ⟨⟨["Getting repository issues for: " ++ r], [], by simp [stOf, addAct],
      by simp [stOf, addAct], by simp⟩, rfl, rfl⟩
  | ok issues =>
    dsimp only
    cases issues with
    | nil =>
      exact ⟨⟨["Getting repository issues for: " ++ r], [], by simp [stOf],
        by simp [stOf], by simp⟩, rfl, rfl⟩
    | cons a t =>
      dsimp only
      by_cases ha : a.err
      · rw [if_pos ha]
        refine ⟨⟨["Getting repository issues for: " ++ r,
          "Error getting issues for " ++ r ++ ": " ++ a.msg.getD "Unknown error"],
          ["Error getting issues for " ++ r ++ ": " ++ a.msg.getD "Unknown error"],
          by simp [stOf], by simp [stOf, addErr], by simp⟩, rfl, rfl⟩
      · rw [if_neg ha]
        exact ⟨⟨["Getting repository issues for: " ++ r], [], by simp [stOf],
          by simp [stOf], by simp⟩, rfl, rfl⟩

lemma fanIssues_frame (F : Facades) (state : String) : ∀ (l : List String) (st : RunState),
    LogFrame st (stOf (fanIssues F state st l)) ∧
    (stOf (fanIssues F state st l)).rd.repository_contents = st.rd.repository_contents ∧
    (stOf (fanIssues F state st l)).extracted = st.extracted := by
  intro l
  induction l with
  | nil => intro st; exact ⟨logFrame_refl st, rfl, rfl⟩
  | cons r rest ih =>
    intro st
    have hcons : fanIssues F state st (r :: rest) =
        (match fanIssuesStep F state st r with
         | .inl st2 => fanIssues F state st2 rest
         | .inr p => .inr p) := rfl
    rw [hcons]
    cases hs : fanIssuesStep F state st r with
    | inl st2 =>
      have hstep := fanIssuesStep_frame F state st r
      rw [hs] at hstep
      dsimp only [stOf] at hstep
      dsimp only
      obtain ⟨hlf, hc, he⟩ := hstep
      obtain ⟨hlf2, hc2, he2⟩ := ih st2
      exact ⟨logFrame_trans hlf hlf2, by rw [hc2, hc], by rw [he2, he]⟩
    | inr p =>
      obtain ⟨s, e⟩ := p
      have hstep := fanIssuesStep_frame F state st r
      rw [hs] at hstep
      dsimp only [stOf] at hstep ⊢
      exact hstep

lemma fanStructsStep_frame (F : Facades) (depth : Nat) (st : RunState) (r : String) :
    LogFrame st (stOf (fanStructsStep F depth st r)) ∧
    (stOf (fanStructsStep F depth st r)).rd.repository_contents = st.rd.repository_contents ∧
    (stOf (fanStructsStep F depth st r)).extracted = st.extracted := by
  unfold fanStructsStep
  cases hF : F.get_repository_structure r depth with
  | error e =>
    dsimp only
    exact ⟨⟨["Getting repository structure for: " ++ r], [], by simp [stOf, addAct],
      by simp [stOf, addAct], by simp⟩, rfl, rfl⟩
  | ok d =>
    dsimp only
    by_cases hd : !d.empty && d.err
    · rw [if_pos hd]
      refine ⟨⟨["Getting repository structure for: " ++ r,
        "Error getting structure for " ++ r ++ ": " ++ d.msg.getD "Unknown error"],
        ["Error getting structure for " ++ r ++ ": " ++ d.msg.getD "Unknown error"],
        by simp [stOf], by simp [stOf, addErr], by simp⟩, rfl, rfl⟩
    · rw [if_neg hd]
      exact ⟨⟨["Getting repository structure for: " ++ r], [], by simp [stOf],
        by simp [stOf], by simp⟩, rfl, rfl⟩

lemma fanStructs_frame (F : Facades) (depth : Nat) : ∀ (l : List String) (st : RunState),
    LogFrame st (stOf (fanStructs F depth st l)) ∧
    (stOf (fanStructs F depth st l)).rd.repository_contents = st.rd.repository_contents ∧
    (stOf (fanStructs F depth st l)).extracted = st.extracted := by
  intro l
  induction l with
  | nil => intro st; exact ⟨logFrame_refl st, rfl, rfl⟩
  | cons r rest ih =>
    intro st
    have hcons : fanStructs F depth st (r :: rest) =
        (match fanStructsStep F depth st r with
         | .inl st2 => fanStructs F depth st2 rest
         | .inr p => .inr p) := rfl
    rw [hcons]
    cases hs : fanStructsStep F depth st r with
    | inl st2 =>
      have hstep := fanStructsStep_frame F depth st r
      rw [hs] at hstep
      dsimp only [stOf] at hstep
      dsimp only
      obtain ⟨hlf, hc, he⟩ := hstep
      obtain ⟨hlf2, hc2, he2⟩ := ih st2
      exact ⟨logFrame_trans hlf hlf2, by rw [hc2, hc], by rw [he2, he]⟩
    | inr p =>
      obtain ⟨s, e⟩ := p
      have hstep := fanStructsStep_frame F depth st r
      rw [hs] at hstep
      dsimp only [stOf] at hstep ⊢
      exact hstep

lemma fanContentsStep_frame (F : Facades) (path : String) (st : RunState) (r : String) :
    LogFrame st (stOf (fanContentsStep F path st r)) ∧
    (stOf (fanContentsStep F path st r)).extracted = st.extracted := by
  unfold fanContentsStep
  cases hF : F.get_repository_contents r path with
  | error e =>
    dsimp only
    exact ⟨⟨["Getting repository contents for: " ++ r ++ ", path: " ++ path], [],
      by simp [stOf, addAct], by simp [stOf, addAct], by simp⟩, rfl⟩
  | ok cts =>
    dsimp only
    cases cts with
    | nil =>
      exact ⟨⟨["Getting repository contents for: " ++ r ++ ", path: " ++ path], [],
        by simp [stOf], by simp [stOf, contStore], by simp⟩, rfl⟩
    | cons a t =>
      dsimp only
      by_cases ha : a.err
      · rw [if_pos ha]
        refine ⟨⟨["Getting repository contents for: " ++ r ++ ", path: " ++ path,
          "Error getting contents for " ++ r ++ ": " ++ a.msg.getD "Unknown error"],
          ["Error getting contents for " ++ r ++ ": " ++ a.msg.getD "Unknown error"],
          by simp [stOf], by simp [stOf, addErr], by simp⟩, rfl⟩
      · rw [if_neg ha]
        exact ⟨⟨["Getting repository contents for: " ++ r ++ ", path: " ++ path], [],
          by simp [stOf], by simp [stOf, contStore], by simp⟩, rfl⟩

lemma fanContents_frame (F : Facades) (path : String) : ∀ (l : List String) (st : RunState),
    LogFrame st (stOf (fanContents F path st l)) ∧
    (stOf (fanContents F path st l)).extracted = st.extracted := by
  intro l
  induction l with
  | nil => intro st; exact ⟨logFrame_refl st, rfl⟩
  | cons r rest ih =>
    intro st
    have hcons : fanContents F path st (r :: rest) =
        (match fanContentsStep F path st r with
         | .inl st2 => fanContents F path st2 rest
         | .inr p => .inr p) := rfl
    rw [hcons]
    cases hs : fanContentsStep F path st r with
    | inl st2 =>
      have hstep := fanContentsStep_frame F path st r
      rw [hs] at hstep
      dsimp only [stOf] at hstep
      dsimp only
      obtain ⟨hlf, he⟩ := hstep
      obtain ⟨hlf2, he2⟩ := ih st2
      exact ⟨logFrame_trans hlf hlf2, by rw [he2, he]⟩
    | inr p =>
      obtain ⟨s, e⟩ := p
      have hstep := fanContentsStep_frame F path st r
      rw [hs] at hstep
      dsimp only [stOf] at hstep ⊢
      exact hstep

lemma bGmail_frame (F : Facades) (enum : List String → List String) (st : RunState) (p : Params) :
    LogFrameM st (stOf (bGmail F enum st p)) ∧
    (stOf (bGmail F enum st p)).rd.repository_contents = st.rd.repository_contents := by
  unfold bGmail
  cases htv : tv p.query with
  | none =>
    dsimp only
    refine ⟨⟨[], ["Missing " ++ qm ++ "query" ++ qm ++ " parameter for search_gmail"],
      by simp [stOf], by simp [stOf, addErr], ?_⟩, rfl⟩
    intro m hm
    right
    simp only [List.mem_singleton] at hm
    subst hm
    simp [missingMsgs]
  | some q =>
    dsimp only
    cases hF : F.search_emails q (p.max_results.getD 10) with
    | error e =>
      dsimp only
      exact ⟨⟨["Searching Gmail with query: " ++ q], [], by simp [stOf],
        by simp [stOf], by simp⟩, rfl⟩
    | ok emails =>
      dsimp only
      by_cases hx : (extractClean enum emails).isEmpty
      · rw [if_pos hx]
        exact ⟨⟨["Searching Gmail with query: " ++ q,
          "No repository names were extracted from emails"], [], by simp [stOf],
          by simp [stOf], by simp⟩, rfl⟩
      · rw [if_neg hx]
        exact ⟨⟨["Searching Gmail with query: " ++ q,
          "Extracted repository names: " ++ String.intercalate ", " (extractClean enum emails)],
          [], by simp [stOf], by simp [stOf], by simp⟩, rfl⟩

lemma bContent_frame (F : Facades) (st : RunState) (p : Params) :
    LogFrameM st (stOf (bContent F st p)) ∧
    (stOf (bContent F st p)).rd.repository_contents = st.rd.repository_contents ∧
    (stOf (bContent F st p)).extracted = st.extracted := by
  unfold bContent
  cases htv : tv p.email_id with
  | none =>
    dsimp only
    refine ⟨⟨[], ["Missing " ++ qm ++ "email_id" ++ qm ++ " parameter for get_email_content"],
      by simp [stOf], by simp [stOf, addErr], ?_⟩, rfl, rfl⟩
    intro m hm
    right
    simp only [List.mem_singleton] at hm
    subst hm
    simp [missingMsgs]
  | some raw =>
    dsimp only
    cases hF : F.get_email_content (cleanEmailId raw) with
    | error e =>
      dsimp only
      exact ⟨⟨["Getting email content for ID: " ++ cleanEmailId raw], [], by simp [stOf],
        by simp [stOf], by simp⟩, rfl, rfl⟩
    | ok c =>
      dsimp only
      exact ⟨⟨["Getting email content for ID: " ++ cleanEmailId raw], [], by simp [stOf],
        by simp [stOf], by simp⟩, rfl, rfl⟩

lemma bSearchRepos_frame (F : Facades) (st : RunState) (p : Params) :
    LogFrameM st (stOf (bSearchRepos F st p)) ∧
    (stOf (bSearchRepos F st p)).rd.repository_contents = st.rd.repository_contents ∧
    (stOf (bSearchRepos F st p)).extracted = st.extracted := by
  unfold bSearchRepos
  cases htv : tv p.query with
  | none =>
    dsimp only
    refine ⟨⟨[], ["Missing " ++ qm ++ "query" ++ qm ++ " parameter for search_github_repos"],
      by simp [stOf], by simp [stOf, addErr], ?_⟩, rfl, rfl⟩
    intro m hm
    right
    simp only [List.mem_singleton] at hm
    subst hm
    simp [missingMsgs]
  | some q =>
    dsimp only
    cases hF : F.search_repositories q (p.max_results.getD 5) with
    | error e =>
      dsimp only
      exact ⟨⟨["Searching GitHub repositories with query: " ++ q], [], by simp [stOf],
        by simp [stOf], by simp⟩, rfl, rfl⟩
    | ok repos =>
      dsimp only
      exact ⟨⟨["Searching GitHub repositories with query: " ++ q], [], by simp [stOf],
        by simp [stOf], by simp⟩, rfl, rfl⟩

lemma bAlerts_frame (F : Facades) (st : RunState) (p : Params) :
    LogFrameM st (stOf (bAlerts F st p)) ∧
    (stOf (bAlerts F st p)).rd.repository_contents = st.rd.repository_contents ∧
    (stOf (bAlerts F st p)).extracted = st.extracted := by
  unfold bAlerts
  cases htv : tv p.repo_name with
  | none =>
    dsimp only
    by_cases hx : st.extracted.isEmpty
    · rw [if_pos hx]
      refine ⟨⟨[], [missRepoMsg "get_repo_alerts"], by simp [stOf],
        by simp [stOf, addErr], ?_⟩, rfl, rfl⟩
      intro m hm
      right
      simp only [List.mem_singleton] at hm
      subst hm
      simp [missingMsgs]
    · rw [if_neg hx]
      have h := fanAlerts_frame F st.extracted st
      exact ⟨logFrameM_of_frame h.1, h.2.1, h.2.2⟩
  | some r =>
    dsimp only
    have h := fanAlerts_frame F [r] st
    exact ⟨logFrameM_of_frame h.1, h.2.1, h.2.2⟩

lemma bIssues_frame (F : Facades) (st : RunState) (p : Params) :
    LogFrameM st (stOf (bIssues F st p)) ∧
    (stOf (bIssues F st p)).rd.repository_contents = st.rd.repository_contents ∧
    (stOf (bIssues F st p)).extracted = st.extracted := by
  unfold bIssues
  cases htv : tv p.repo_name with
  | none =>
    dsimp only
    by_cases hx : st.extracted.isEmpty
    · rw [if_pos hx]
      refine ⟨⟨[], [missRepoMsg "get_repo_issues"], by simp [stOf],
        by simp [stOf, addErr], ?_⟩, rfl, rfl⟩
      intro m hm
      right
      simp only [List.mem_singleton] at hm
      subst hm
      simp [missingMsgs]
    · rw [if_neg hx]
      have h := fanIssues_frame F (p.state.getD "open") st.extracted st
      exact ⟨logFrameM_of_frame h.1, h.2.1, h.2.2⟩
  | some r =>
    dsimp only
    have h := fanIssues_frame F (p.state.getD "open") [r] st
    exact ⟨logFrameM_of_frame h.1, h.2.1, h.2.2⟩

lemma bStructs_frame (F : Facades) (st : RunState) (p : Params) :
    LogFrameM st (stOf (bStructs F st p)) ∧
    (stOf (bStructs F st p)).rd.repository_contents = st.rd.repository_contents ∧
    (stOf (bStructs F st p)).extracted = st.extracted := by
  unfold bStructs
  cases htv : tv p.repo_name with
  | none =>
    dsimp only
    by_cases hx : st.extracted.isEmpty
    · rw [if_pos hx]
      refine ⟨⟨[missRepoMsg "get_repo_structure"], [missRepoMsg "get_repo_structure"],
        by simp [stOf, addAct, addErr], by simp [stOf, addAct, addErr], ?_⟩, rfl, rfl⟩
      intro m hm
      left
      exact hm
    · rw [if_neg hx]
      have h := fanStructs_frame F (p.max_depth.getD 3) st.extracted st
      exact ⟨logFrameM_of_frame h.1, h.2.1, h.2.2⟩
  | some r =>
    dsimp only
    have h := fanStructs_frame F (p.max_depth.getD 3) [r] st
    exact ⟨logFrameM_of_frame h.1, h.2.1, h.2.2⟩

lemma bContents_frame (F : Facades) (st : RunState) (p : Params) :
    LogFrameM st (stOf (bContents F st p)) ∧
    (stOf (bContents F st p)).extracted = st.extracted := by
  unfold bContents
  cases htv : tv p.repo_name with
  | none =>
    dsimp only
    by_cases hx : st.extracted.isEmpty
    · rw [if_pos hx]
      refine ⟨⟨[], [missRepoMsg "get_repo_contents"], by simp [stOf],
        by simp [stOf, addErr], ?_⟩, rfl⟩
      intro m hm
      right
      simp only [List.mem_singleton] at hm
      subst hm
      simp [missingMsgs]
    · rw [if_neg hx]
      have h := fanContents_frame F (p.path.getD "") st.extracted st
      exact ⟨logFrameM_of_frame h.1, h.2⟩
  | some r =>
    dsimp only
    have h := fanContents_frame F (p.path.getD "") [r] st
    exact ⟨logFrameM_of_frame h.1, h.2⟩

lemma tryBody_frame (F : Facades) (enum : List String → List String) (st : RunState) (sp : Step) :
    LogFrameM st (stOf (tryBody F enum st sp)) ∧
    (sp.type ≠ some "get_repo_contents" →
      (stOf (tryBody F enum st sp)).rd.repository_contents = st.rd.repository_contents) ∧
    (sp.type ≠ some "search_gmail" → (stOf (tryBody F enum st sp)).extracted = st.extracted) := by
  unfold tryBody
  by_cases h1 : sp.type = some "search_gmail"
  · rw [if_pos h1]
    have h := bGmail_frame F enum st sp.params
    exact ⟨h.1, fun _ => h.2, fun hne => absurd h1 hne⟩
  · rw [if_neg h1]
    by_cases h2 : sp.type = some "get_email_content"
    · rw [if_pos h2]
      have h := bContent_frame F st sp.params
      exact ⟨h.1, fun _ => h.2.1, fun _ => h.2.2⟩
    · rw [if_neg h2]
      by_cases h3 : sp.type = some "search_github_repos"
      · rw [if_pos h3]
        have h := bSearchRepos_frame F st sp.params
        exact ⟨h.1, fun _ => h.2.1, fun _ => h.2.2⟩
      · rw [if_neg h3]
        by_cases h4 : sp.type = some "get_repo_alerts"
        · rw [if_pos h4]
          have h := bAlerts_frame F st sp.params
          exact ⟨h.1, fun _ => h.2.1, fun _ => h.2.2⟩
        · rw [if_neg h4]
          by_cases h5 : sp.type = some "get_repo_issues"
          · rw [if_pos h5]
            have h := bIssues_frame F st sp.params
            exact ⟨h.1, fun _ => h.2.1, fun _ => h.2.2⟩
          · rw [if_neg h5]
            by_cases h6 : sp.type = some "get_repo_structure"
            · rw [if_pos h6]
              have h := bStructs_frame F st sp.params
              exact ⟨h.1, fun _ => h.2.1, fun _ => h.2.2⟩
            · rw [if_neg h6]
              by_cases h7 : sp.type = some "get_repo_contents"
              · rw [if_pos h7]
                have h := bContents_frame F st sp.params
                exact ⟨h.1, fun hne => absurd h7 hne, fun _ => h.2⟩
              · rw [if_neg h7]
                dsimp only [stOf]
                refine ⟨⟨["Unknown step type: " ++ showType sp.type],
                  ["Unknown step type: " ++ showType sp.type],
                  by simp [addAct, addErr], by simp [addAct, addErr], ?_⟩, fun _ => rfl, fun _ => rfl⟩
                intro m hm
                left
                exact hm

lemma execStep_frame (F : Facades) (enum : List String → List String) (st : RunState) (sp : Step) :
    LogFrameM st (execStep F enum st sp) ∧
    (sp.type ≠ some "get_repo_contents" →
      (execStep F enum st sp).rd.repository_contents = st.rd.repository_contents) ∧
    (sp.type ≠ some "search_gmail" → (execStep F enum st sp).extracted = st.extracted) := by
  unfold execStep
  cases ht : tryBody F enum st sp with
  | inl s =>
    have h := tryBody_frame F enum st sp
    rw [ht] at h
    dsimp only [stOf] at h
    dsimp only
    exact h
  | inr p =>
    obtain ⟨s, e⟩ := p
    have h := tryBody_frame F enum st sp
    rw [ht] at h
    dsimp only [stOf] at h
    dsimp only
    obtain ⟨hlf, hc, he⟩ := h
    have hone : LogFrameM s (addAct { s with rd := addErr s.rd (procMsg sp e) } (procMsg sp e)) :=
      ⟨[procMsg sp e], [procMsg sp e], by simp [addAct, addErr], by simp [addAct, addErr],
        fun m hm => Or.inl hm⟩
    refine ⟨logFrameM_trans hlf hone, fun hne => ?_, fun hne => ?_⟩
    · show s.rd.repository_contents = st.rd.repository_contents
      exact hc hne
    · show s.extracted = st.extracted
      exact he hne

lemma runSteps_frame (F : Facades) (enum : List String → List String) :
    ∀ (steps : List Step) (st : RunState),
    LogFrameM st (runSteps F enum st steps) ∧
    ((∀ sp ∈ steps, sp.type ≠ some "get_repo_contents") →
      (runSteps F enum st steps).rd.repository_contents = st.rd.repository_contents) := by
  intro steps
  induction steps with
  | nil =>
    intro st
    exact ⟨⟨[], [], by simp [runSteps], by simp [runSteps], by simp⟩, fun _ => rfl⟩
  | cons sp rest ih =>
    intro st
    rw [runSteps]
    have he := execStep_frame F enum st sp
    obtain ⟨hlf2, hc2⟩ := ih (execStep F enum st sp)
    refine ⟨logFrameM_trans he.1 hlf2, fun hall => ?_⟩
    rw [hc2 (fun s hs => hall s (by simp [hs])), he.2.1 (hall sp (by simp))]

/-- C2 (amended): the aggregate is pre-declared at run start with empty
containers for `emails`, `email_contents`, `github_repos`,
`repository_alerts`, `repository_issues`, `repository_structures` and
`errors`, with `repository_contents` absent; and the `repository_contents`
key stays absent in every run whose plan contains no `get_repo_contents`
step, so it is not present in every run. -/
theorem C2_eager_keys :
    initState.rd = ⟨[], [], [], [], [], [], none, []⟩ ∧
    ∀ (F : Facades) (enum : List String → List String) (steps : List Step),
      (∀ sp ∈ steps, sp.type ≠ some "get_repo_contents") →
      (processQuery F enum steps).data.repository_contents = none := by
  refine ⟨rfl, fun F enum steps h => ?_⟩
  show (runSteps F enum initState steps).rd.repository_contents = none
  rw [(runSteps_frame F enum steps initState).2 h]
  rfl

theorem C2_eager_keys_witness :
    (∀ sp ∈ [spG "x"], sp.type ≠ some "get_repo_contents") ∧
    (processQuery Fu enumD [spG "x"]).data.repository_contents = none :=
  ⟨by decide, C2_eager_keys.2 Fu enumD [spG "x"] (by decide)⟩

/-- C8 (amended): every entry of the errors list of a run is either also an
action-log line of that run or one of the seven missing-required-parameter
messages (which, except for the `get_repo_structure` variant, are recorded
only in the errors list). -/
theorem C8_errors_covered (F : Facades) (enum : List String → List String)
    (steps : List Step) (m : String)
    (h : m ∈ (processQuery F enum steps).data.errors) :
    m ∈ (processQuery F enum steps).actions_taken ∨ m ∈ missingMsgs := by
  obtain ⟨⟨da, de, ha, he, hcov⟩, _⟩ := runSteps_frame F enum steps initState
  have herr : (runSteps F enum initState steps).rd.errors = de := by
    rw [he]; simp [initState]
  have hact : (runSteps F enum initState steps).actions = da := by
    rw [ha]; simp [initState]
  have h2 : m ∈ de := by
    rw [show (processQuery F enum steps).data = (runSteps F enum initState steps).rd from rfl,
      herr] at h
    exact h
  rcases hcov m h2 with hda | hmm2
  · left
    show m ∈ (runSteps F enum initState steps).actions ++ ["Generating response"]
    rw [hact]
    exact List.mem_append.mpr (Or.inl hda)
  · right
    exact hmm2

theorem C8_errors_covered_witness :
    "Unknown step type: frobnicate" ∈ (processQuery Fu enumD [spU]).data.errors ∧
    ("Unknown step type: frobnicate" ∈ (processQuery Fu enumD [spU]).actions_taken ∨
      "Unknown step type: frobnicate" ∈ missingMsgs) :=
  ⟨by decide, C8_errors_covered Fu enumD [spU] "Unknown step type: frobnicate" (by decide)⟩

/-- C5 (amended): a successful `search_gmail` step unconditionally overwrites
`extracted_repo_names` with the extraction of its own results, and steps of
every other kind leave `extracted_repo_names` unchanged — so the value seen
by a later step is that of the most recent email search, not of the first. -/
theorem C5_extraction_assignment :
    (∀ (F : Facades) (enum : List String → List String) (st : RunState) (p : Params)
       (q : String) (emails : List Email),
       tv p.query = some q →
       F.search_emails q (p.max_results.getD 10) = Except.ok emails →
       (execStep F enum st ⟨some "search_gmail", p⟩).extracted = extractClean enum emails) ∧
    (∀ (F : Facades) (enum : List String → List String) (st : RunState) (sp : Step),
       sp.type ≠ some "search_gmail" → (execStep F enum st sp).extracted = st.extracted) := by
  constructor
  · intro F enum st p q emails htv hF
    unfold execStep tryBody
    rw [if_pos rfl]
    unfold bGmail
    dsimp only
    rw [htv]
    dsimp only
    rw [hF]
    dsimp only
    by_cases hx : (extractClean enum emails).isEmpty
    · rw [if_pos hx]
    · rw [if_neg hx]
  · intro F enum st sp hne
    exact (execStep_frame F enum st sp).2.2 hne

theorem C5_extraction_assignment_witness :
    tv ({ pEmpty with query := some "q1" } : Params).query = some "q1" ∧
    F5c.search_emails "q1" (({ pEmpty with query := some "q1" } : Params).max_results.getD 10) =
      Except.ok [⟨"a/b", ""⟩] ∧
    (execStep F5c enumD initState ⟨some "search_gmail", { pEmpty with query := some "q1" }⟩).extracted =
      extractClean enumD [⟨"a/b", ""⟩] ∧
    spU.type ≠ some "search_gmail" ∧
    (execStep Fu enumD stG spU).extracted = stG.extracted :=
  ⟨rfl, rfl,
   C5_extraction_assignment.1 F5c enumD initState { pEmpty with query := some "q1" } "q1"
     [⟨"a/b", ""⟩] rfl rfl,
   by decide,
   C5_extraction_assignment.2 Fu enumD stG spU (by decide)⟩

/-- C3 (amended): for the four repo-scoped step kinds with an explicit
(truthy) `repo_name`, a facade result carrying the embedded error marker is
recognised as a soft failure: the error line is appended to both the errors
list and the action log, and the corresponding aggregate slot is left
unpopulated.  (The search and read steps store their results unchecked —
see the counterexample.) -/
theorem C3_soft_error_checked (F : Facades) (enum : List String → List String)
    (st : RunState) (p : Params) (r : String) (htv : tv p.repo_name = some r) :
    (∀ (a : RItem) (t : List RItem),
      F.get_repository_alerts r = Except.ok (a :: t) → a.err = true →
      (execStep F enum st ⟨some "get_repo_alerts", p⟩).rd.repository_alerts =
        st.rd.repository_alerts ∧
      (execStep F enum st ⟨some "get_repo_alerts", p⟩).rd.errors =
        st.rd.errors ++ ["Error getting alerts for " ++ r ++ ": " ++ a.msg.getD "Unknown error"] ∧
      (execStep F enum st ⟨some "get_repo_alerts", p⟩).actions =
        st.actions ++ ["Getting repository alerts for: " ++ r,
          "Error getting alerts for " ++ r ++ ": " ++ a.msg.getD "Unknown error"]) ∧
    (∀ (a : RItem) (t : List RItem),
      F.get_repository_issues r (p.state.getD "open") = Except.ok (a :: t) → a.err = true →
      (execStep F enum st ⟨some "get_repo_issues", p⟩).rd.repository_issues =
        st.rd.repository_issues ∧
      (execStep F enum st ⟨some "get_repo_issues", p⟩).rd.errors =
        st.rd.errors ++ ["Error getting issues for " ++ r ++ ": " ++ a.msg.getD "Unknown error"] ∧
      (execStep F enum st ⟨some "get_repo_issues", p⟩).actions =
        st.actions ++ ["Getting repository issues for: " ++ r,
          "Error getting issues for " ++ r ++ ": " ++ a.msg.getD "Unknown error"]) ∧
    (∀ (d : SDict),
      F.get_repository_structure r (p.max_depth.getD 3) = Except.ok d →
      d.empty = false → d.err = true →
      (execStep F enum st ⟨some "get_repo_structure", p⟩).rd.repository_structures =
        st.rd.repository_structures ∧
      (execStep F enum st ⟨some "get_repo_structure", p⟩).rd.errors =
        st.rd.errors ++ ["Error getting structure for " ++ r ++ ": " ++ d.msg.getD "Unknown error"] ∧
      (execStep F enum st ⟨some "get_repo_structure", p⟩).actions =
        st.actions ++ ["Getting repository structure for: " ++ r,
          "Error getting structure for " ++ r ++ ": " ++ d.msg.getD "Unknown error"]) ∧
    (∀ (a : RItem) (t : List RItem),
      F.get_repository_contents r (p.path.getD "") = Except.ok (a :: t) → a.err = true →
      (execStep F enum st ⟨some "get_repo_contents", p⟩).rd.repository_contents =
        st.rd.repository_contents ∧
      (execStep F enum st ⟨some "get_repo_contents", p⟩).rd.errors =
        st.rd.errors ++ ["Error getting contents for " ++ r ++ ": " ++ a.msg.getD "Unknown error"] ∧
      (execStep F enum st ⟨some "get_repo_contents", p⟩).actions =
        st.actions ++ ["Getting repository contents for: " ++ r ++ ", path: " ++ p.path.getD "",
          "Error getting contents for " ++ r ++ ": " ++ a.msg.getD "Unknown error"]) := by
  refine ⟨?_, ?_, ?_, ?_⟩
  · intro a t hF ha
    have hstep : fanAlertsStep F st r = Sum.inl
        ⟨addErr st.rd ("Error getting alerts for " ++ r ++ ": " ++ a.msg.getD "Unknown error"),
         st.actions ++ ["Getting repository alerts for: " ++ r,
           "Error getting alerts for " ++ r ++ ": " ++ a.msg.getD "Unknown error"],
         st.extracted⟩ := by
      unfold fanAlertsStep
      rw [hF]
      dsimp only
      rw [if_pos ha]
    have hrun : tryBody F enum st ⟨some "get_repo_alerts", p⟩ = fanAlerts F st [r] := by
      unfold tryBody
      dsimp only
      rw [if_neg (by decide), if_neg (by decide), if_neg (by decide), if_pos rfl]
      unfold bAlerts
      rw [htv]
    unfold execStep
    rw [hrun, show fanAlerts F st [r] =
      (match fanAlertsStep F st r with
       | .inl st2 => fanAlerts F st2 []
       | .inr q => .inr q) from rfl, hstep]
    exact ⟨rfl, rfl, rfl⟩
  · intro a t hF ha
    have hstep : fanIssuesStep F (p.state.getD "open") st r = Sum.inl
        ⟨addErr st.rd ("Error getting issues for " ++ r ++ ": " ++ a.msg.getD "Unknown error"),
         st.actions ++ ["Getting repository issues for: " ++ r,
           "Error getting issues for " ++ r ++ ": " ++ a.msg.getD "Unknown error"],
         st.extracted⟩ := by
      unfold fanIssuesStep
      rw [hF]
      dsimp only
      rw [if_pos ha]
    have hrun : tryBody F enum st ⟨some "get_repo_issues", p⟩ =
        fanIssues F (p.state.getD "open") st [r] := by
      unfold tryBody
      dsimp only
      rw [if_neg (by decide), if_neg (by decide), if_neg (by decide), if_neg (by decide),
        if_pos rfl]
      unfold bIssues
      rw [htv]
    unfold execStep
    rw [hrun, show fanIssues F (p.state.getD "open") st [r] =
      (match fanIssuesStep F (p.state.getD "open") st r with
       | .inl st2 => fanIssues F (p.state.getD "open") st2 []
       | .inr q => .inr q) from rfl, hstep]
    exact ⟨rfl, rfl, rfl⟩
  · intro d hF hde hderr
    have hstep : fanStructsStep F (p.max_depth.getD 3) st r = Sum.inl
        ⟨addErr st.rd ("Error getting structure for " ++ r ++ ": " ++ d.msg.getD "Unknown error"),
         st.actions ++ ["Getting repository structure for: " ++ r,
           "Error getting structure for " ++ r ++ ": " ++ d.msg.getD "Unknown error"],
         st.extracted⟩ := by
      unfold fanStructsStep
      rw [hF]
      dsimp only
      rw [if_pos (by rw [hde, hderr]; rfl)]
    have hrun : tryBody F enum st ⟨some "get_repo_structure", p⟩ =
        fanStructs F (p.max_depth.getD 3) st [r] := by
      unfold tryBody
      dsimp only
      rw [if_neg (by decide), if_neg (by decide), if_neg (by decide), if_neg (by decide),
        if_neg (by decide), if_pos rfl]
      unfold bStructs
      rw [htv]
    unfold execStep
    rw [hrun, show fanStructs F (p.max_depth.getD 3) st [r] =
      (match fanStructsStep F (p.max_depth.getD 3) st r with
       | .inl st2 => fanStructs F (p.max_depth.getD 3) st2 []
       | .inr q => .inr q) from rfl, hstep]
    exact ⟨rfl, rfl, rfl⟩
  · intro a t hF ha
    have hstep : fanContentsStep F (p.path.getD "") st r = Sum.inl
        ⟨addErr st.rd ("Error getting contents for " ++ r ++ ": " ++ a.msg.getD "Unknown error"),
         st.actions ++ ["Getting repository contents for: " ++ r ++ ", path: " ++ p.path.getD "",
           "Error getting contents for " ++ r ++ ": " ++ a.msg.getD "Unknown error"],
         st.extracted⟩ := by
      unfold fanContentsStep
      rw [hF]
      dsimp only
      rw [if_pos ha]
    have hrun : tryBody F enum st ⟨some "get_repo_contents", p⟩ =
        fanContents F (p.path.getD "") st [r] := by
      unfold tryBody
      dsimp only
      rw [if_neg (by decide), if_neg (by decide), if_neg (by decide), if_neg (by decide),
        if_neg (by decide), if_neg (by decide), if_pos rfl]
      unfold bContents
      rw [htv]
    unfold execStep
    rw [hrun, show fanContents F (p.path.getD "") st [r] =
      (match fanContentsStep F (p.path.getD "") st r with
       | .inl st2 => fanContents F (p.path.getD "") st2 []
       | .inr q => .inr q) from rfl, hstep]
    exact ⟨rfl, rfl, rfl⟩

theorem C3_soft_error_checked_witness :
    tv (pRepo "a/b").repo_name = some "a/b" ∧
    ((execStep Fsoft enumD initState ⟨some "get_repo_alerts", pRepo "a/b"⟩).rd.repository_alerts =
        initState.rd.repository_alerts ∧
      (execStep Fsoft enumD initState ⟨some "get_repo_alerts", pRepo "a/b"⟩).rd.errors =
        initState.rd.errors ++ ["Error getting alerts for " ++ "a/b" ++ ": " ++
          (⟨true, some "nf", 1⟩ : RItem).msg.getD "Unknown error"] ∧
      (execStep Fsoft enumD initState ⟨some "get_repo_alerts", pRepo "a/b"⟩).actions =
        initState.actions ++ ["Getting repository alerts for: " ++ "a/b",
          "Error getting alerts for " ++ "a/b" ++ ": " ++
            (⟨true, some "nf", 1⟩ : RItem).msg.getD "Unknown error"]) ∧
    ((execStep Fsoft enumD initState ⟨some "get_repo_issues", pRepo "a/b"⟩).rd.repository_issues =
        initState.rd.repository_issues ∧
      (execStep Fsoft enumD initState ⟨some "get_repo_issues", pRepo "a/b"⟩).rd.errors =
        initState.rd.errors ++ ["Error getting issues for " ++ "a/b" ++ ": " ++
          (⟨true, some "nf", 2⟩ : RItem).msg.getD "Unknown error"] ∧
      (execStep Fsoft enumD initState ⟨some "get_repo_issues", pRepo "a/b"⟩).actions =
        initState.actions ++ ["Getting repository issues for: " ++ "a/b",
          "Error getting issues for " ++ "a/b" ++ ": " ++
            (⟨true, some "nf", 2⟩ : RItem).msg.getD "Unknown error"]) ∧
    ((execStep Fsoft enumD initState ⟨some "get_repo_structure", pRepo "a/b"⟩).rd.repository_structures =
        initState.rd.repository_structures ∧
      (execStep Fsoft enumD initState ⟨some "get_repo_structure", pRepo "a/b"⟩).rd.errors =
        initState.rd.errors ++ ["Error getting structure for " ++ "a/b" ++ ": " ++
          (⟨false, true, some "nf", 3⟩ : SDict).msg.getD "Unknown error"] ∧
      (execStep Fsoft enumD initState ⟨some "get_repo_structure", pRepo "a/b"⟩).actions =
        initState.actions ++ ["Getting repository structure for: " ++ "a/b",
          "Error getting structure for " ++ "a/b" ++ ": " ++
            (⟨false, true, some "nf", 3⟩ : SDict).msg.getD "Unknown error"]) ∧
    ((execStep Fsoft enumD initState ⟨some "get_repo_contents", pRepo "a/b"⟩).rd.repository_contents =
        initState.rd.repository_contents ∧
      (execStep Fsoft enumD initState ⟨some "get_repo_contents", pRepo "a/b"⟩).rd.errors =
        initState.rd.errors ++ ["Error getting contents for " ++ "a/b" ++ ": " ++
          (⟨true, some "nf", 4⟩ : RItem).msg.getD "Unknown error"] ∧
      (execStep Fsoft enumD initState ⟨some "get_repo_contents", pRepo "a/b"⟩).actions =
        initState.actions ++ ["Getting repository contents for: " ++ "a/b" ++ ", path: " ++
          (pRepo "a/b").path.getD "",
          "Error getting contents for " ++ "a/b" ++ ": " ++
            (⟨true, some "nf", 4⟩ : RItem).msg.getD "Unknown error"]) :=
  ⟨rfl,
   (C3_soft_error_checked Fsoft enumD initState (pRepo "a/b") "a/b" rfl).1
     ⟨true, some "nf", 1⟩ [] rfl rfl,
   (C3_soft_error_checked Fsoft enumD initState (pRepo "a/b") "a/b" rfl).2.1
     ⟨true, some "nf", 2⟩ [] rfl rfl,
   (C3_soft_error_checked Fsoft enumD initState (pRepo "a/b") "a/b" rfl).2.2.1
     ⟨false, true, some "nf", 3⟩ rfl rfl rfl,
   (C3_soft_error_checked Fsoft enumD initState (pRepo "a/b") "a/b" rfl).2.2.2
     ⟨true, some "nf", 4⟩ [] rfl rfl⟩
